import Mathlib

/-!
# RSA verifier of go-tuf (`pkg/keys/rsa.go`)

A shallow embedding of the RSA verifier: `NewRsaVerifier`, `Public`, `Verify`,
`MarshalKey`, `UnmarshalKey` and `parseKey`.

* Byte slices and Go strings are lists of byte values (`List Nat`); a nil slice is
  the empty list.
* A pointer that may be nil is an `Option`; dereferencing `none` is a run-time
  panic, made explicit by `Outcome.panic`.
* The Go standard library (`encoding/json`, `encoding/pem`, `crypto/x509`,
  `crypto/sha256`, `crypto/rsa`) is a parameter `Lib` of every function that
  calls it.  The general theorems hold for every `Lib`.  `goLib` is an executable
  instance that follows the sources of the library as of Go 1.16; the theorems
  about concrete inputs evaluate the program with it.
-/

namespace Keys

/-- A Go byte slice, or the bytes of a Go string. -/
abbrev Bytes := List Nat

/-- A Go `error` value that is not nil, identified by its message. -/
structure GoError where
  msg : String
deriving DecidableEq, Repr

/-- `errors.New`. -/
def errors.New (text : String) : GoError := ⟨text⟩

/-- Equality of Go results `(value, error)` is decidable. -/
instance instDecidableEqExcept {ε α : Type} [DecidableEq ε] [DecidableEq α] :
    DecidableEq (Except ε α) := fun a b =>
  match a, b with
  | Except.ok x, Except.ok y =>
    if h : x = y then isTrue (by rw [h]) else isFalse (fun h1 => h (Except.ok.inj h1))
  | Except.error x, Except.error y =>
    if h : x = y then isTrue (by rw [h]) else isFalse (fun h1 => h (Except.error.inj h1))
  | Except.ok _, Except.error _ => isFalse (fun h => Except.noConfusion h)
  | Except.error _, Except.ok _ => isFalse (fun h => Except.noConfusion h)

/-- How a Go call ends: it returns, or it panics (here: a nil pointer dereference). -/
inductive Outcome (α : Type) where
  | ret (a : α)
  | panic
deriving DecidableEq, Repr

/-- `rsa.PublicKey`: modulus `N` (`*big.Int`) and public exponent `E` (`int`). -/
structure RsaPublicKey where
  N : Int
  E : Int
deriving DecidableEq, Repr

/-- The dynamic value behind the `any` that `x509.ParsePKIXPublicKey` returns:
a `*rsa.PublicKey`, or a key of another type (named by its algorithm). -/
inductive PublicKeyAny where
  | rsa (k : RsaPublicKey)
  | other (algorithm : String) (raw : Bytes)
deriving DecidableEq, Repr

/-- The struct `pem.Block`: its type line and its decoded bytes (`rsa.go` reads only
the bytes; the headers are not kept). -/
structure Block where
  BlockType : Bytes
  Bytes : Bytes
deriving DecidableEq, Repr

/-- The `crypto.Hash` identifiers for which `crypto/rsa` has a DigestInfo (`rsa.go`
passes `crypto.SHA256`). -/
inductive CryptoHash where
  | MD5
  | SHA1
  | SHA224
  | SHA256
  | SHA384
  | SHA512
deriving DecidableEq, Repr

/-- Modelled from the spec: the type `data.Key` (package `data` of this repository,
not among the sources), the KeyRecord with "at least algorithm-type: string,
value: raw bytes". -/
structure Key where
  KeyType : String
  Value : Bytes
deriving DecidableEq, Repr

/-- A non-nil `*data.Key`: the address of the record and the record it points to. -/
structure KeyRef where
  addr : Nat
  val : Key
deriving DecidableEq, Repr

/-- The Go standard library functions that `rsa.go` calls.

* `Unmarshal data cur` is `json.Unmarshal(data, p)` for `p *rsaVerifier`: the only
  exported field is `PublicKey`, so the call reads `data` and the current
  `PublicKey` and yields the new `PublicKey` and the error (`none` is nil).
* `Decode` is `pem.Decode`: the block (nil when none was found) and the rest.
* `ParsePKCS1PublicKey`, `ParsePKIXPublicKey` are those of `crypto/x509`.
* `MarshalPKIXPublicKey` is called with a `*rsa.PublicKey` that may be nil.
* `Sum256` is `sha256.Sum256`; `VerifyPKCS1v15` is that of `crypto/rsa`, called
  with a `*rsa.PublicKey` that may be nil. -/
structure Lib where
  Unmarshal : Bytes → Bytes → Bytes × Option GoError
  Decode : Bytes → Option Block × Bytes
  ParsePKCS1PublicKey : Bytes → Except GoError RsaPublicKey
  ParsePKIXPublicKey : Bytes → Except GoError PublicKeyAny
  MarshalPKIXPublicKey : Option RsaPublicKey → Outcome (Except GoError Bytes)
  Sum256 : Bytes → Bytes
  VerifyPKCS1v15 : Option RsaPublicKey → CryptoHash → Bytes → Bytes → Outcome (Option GoError)

/-- The struct `rsaVerifier` (rsa.go:23). -/
structure rsaVerifier where
  PublicKey : Bytes
  rsaKey : Option RsaPublicKey
  key : Option KeyRef
deriving DecidableEq, Repr

/-- `NewRsaVerifier` (rsa.go:19): `&rsaVerifier{}`, every field zero. -/
def NewRsaVerifier : rsaVerifier :=
  { PublicKey := [], rsaKey := none, key := none }

/-- `(*rsaVerifier).Public` (rsa.go:29). -/
def rsaVerifier.Public (lib : Lib) (p : rsaVerifier) : Outcome Bytes :=
  match lib.MarshalPKIXPublicKey p.rsaKey with
  | Outcome.panic => Outcome.panic
  | Outcome.ret (Except.error _) => Outcome.ret p.PublicKey
  | Outcome.ret (Except.ok r) => Outcome.ret r

/-- `(*rsaVerifier).Verify` (rsa.go:40). -/
def rsaVerifier.Verify (lib : Lib) (p : rsaVerifier) (msg sigBytes : Bytes) :
    Outcome (Option GoError) :=
  let hash := lib.Sum256 msg
  lib.VerifyPKCS1v15 p.rsaKey CryptoHash.SHA256 hash sigBytes

/-- `(*rsaVerifier).MarshalKey` (rsa.go:46). -/
def rsaVerifier.MarshalKey (p : rsaVerifier) : Option KeyRef :=
  p.key

/-- `parseKey` (rsa.go:64).  The result pair is Go's `(*rsa.PublicKey, error)`. -/
def parseKey (lib : Lib) (data : Bytes) : Outcome (Option RsaPublicKey × Option GoError) :=
  match (lib.Decode data).1 with
  | none => Outcome.panic
  | some block =>
    match lib.ParsePKCS1PublicKey block.Bytes with
    | Except.ok rsaPub => Outcome.ret (some rsaPub, none)
    | Except.error _ =>
      match lib.ParsePKIXPublicKey block.Bytes with
      | Except.ok key =>
        match key with
        | PublicKeyAny.rsa rsaPub => Outcome.ret (some rsaPub, none)
        | PublicKeyAny.other _ _ => Outcome.ret (none, some (errors.New "not rsa key"))
      | Except.error _ =>
        Outcome.ret (none, some (errors.New "didn\x27t parse with pkcs1 or pkix"))

/-- `(*rsaVerifier).UnmarshalKey` (rsa.go:50): the verifier after the call and how
the call ended. -/
def rsaVerifier.UnmarshalKey (lib : Lib) (p : rsaVerifier) (key : Option KeyRef) :
    rsaVerifier × Outcome (Option GoError) :=
  match key with
  | none => (p, Outcome.panic)
  | some k =>
    let r := lib.Unmarshal k.val.Value p.PublicKey
    let p1 : rsaVerifier := { p with PublicKey := r.1 }
    match r.2 with
    | some _ => (p1, Outcome.ret (some (errors.New "unmarshalling key")))
    | none =>
      match parseKey lib p1.PublicKey with
      | Outcome.panic => (p1, Outcome.panic)
      | Outcome.ret (rsaKey, err) =>
        let p2 : rsaVerifier := { p1 with rsaKey := rsaKey }
        match err with
        | some e => (p2, Outcome.ret (some e))
        | none => ({ p2 with key := some k }, Outcome.ret none)

/-- The error kinds of the specification, as the errors the code makes. -/
def InvalidRecord : GoError := errors.New "unmarshalling key"

/-- MalformedKey of the specification. -/
def MalformedKey : GoError := errors.New "didn\x27t parse with pkcs1 or pkix"

/-- UnsupportedKeyType of the specification. -/
def UnsupportedKeyType : GoError := errors.New "not rsa key"


/-! ## `encoding/base64`: `StdEncoding.Decode` -/

/-- The decode map of the standard alphabet: the six-bit value of an alphabet
character, `none` for any other byte. -/
def base64.decodeMap (c : Nat) : Option Nat :=
  if 65 ≤ c ∧ c ≤ 90 then some (c - 65)
  else if 97 ≤ c ∧ c ≤ 122 then some (c - 71)
  else if 48 ≤ c ∧ c ≤ 57 then some (c + 4)
  else if c = 43 then some 62
  else if c = 47 then some 63
  else none

/-- The "skip over newlines" loops of `decodeQuantum`. -/
def base64.skipNewlines : Bytes → Bytes
  | [] => []
  | c :: cs => if c = 10 ∨ c = 13 then base64.skipNewlines cs else c :: cs

/-- The 24-bit value of a quantum of four six-bit values. -/
def base64.quantum (a b c d : Nat) : Nat :=
  a * 262144 + b * 4096 + c * 64 + d

/-- `StdEncoding.Decode` as a loop over the source: `q` holds the six-bit values
read so far of the current quantum.  `none` is a `CorruptInputError`. -/
def base64.decodeFrom : List Nat → Bytes → Option Bytes
  | q, [] => if q = [] then some [] else none
  | q, c :: cs =>
    match base64.decodeMap c with
    | some v =>
      match q with
      | [a, b, c3] =>
        let val := base64.quantum a b c3 v
        match base64.decodeFrom [] cs with
        | some out => some (val / 65536 % 256 :: val / 256 % 256 :: val % 256 :: out)
        | none => none
      | _ => base64.decodeFrom (q ++ [v]) cs
    | none =>
      if c = 10 ∨ c = 13 then base64.decodeFrom q cs
      else if c = 61 then
        match q with
        | [a, b] =>
          match base64.skipNewlines cs with
          | 61 :: r =>
            if base64.skipNewlines r = [] then some [base64.quantum a b 0 0 / 65536 % 256]
            else none
          | _ => none
        | [a, b, c3] =>
          if base64.skipNewlines cs = [] then
            let val := base64.quantum a b c3 0
            some [val / 65536 % 256, val / 256 % 256]
          else none
        | _ => none
      else none

/-- `base64.StdEncoding.Decode`: the decoded bytes, `none` on corrupt input. -/
def base64.Decode (src : Bytes) : Option Bytes :=
  base64.decodeFrom [] src

/-! ## `encoding/json`: `Unmarshal` into a `*rsaVerifier` -/

/-- A JSON text as the decoder walks it.  Strings and numbers keep their source
text (a string without its quotes, escapes not yet resolved). -/
inductive JSONValue where
  | null
  | bool (b : Bool)
  | number (lit : Bytes)
  | string (raw : Bytes)
  | array (elems : List JSONValue)
  | object (members : List (Bytes × JSONValue))

/-- The tokens of a JSON text. -/
inductive JSONToken where
  | beginObject
  | endObject
  | beginArray
  | endArray
  | colon
  | comma
  | string (raw : Bytes)
  | number (lit : Bytes)
  | litTrue
  | litFalse
  | litNull

/-- The scanner's `isSpace`. -/
def json.isSpace (c : Nat) : Bool :=
  c = 32 || c = 9 || c = 13 || c = 10

/-- A hexadecimal digit, as the scanner accepts after `\u`. -/
def json.isHex (c : Nat) : Bool :=
  (48 ≤ c && c ≤ 57) || (97 ≤ c && c ≤ 102) || (65 ≤ c && c ≤ 70)

/-- The scanner inside a string, after the opening quote: the source text up to
the closing quote and what follows it.  `none`: a control character, a wrong
escape, or no closing quote. -/
def json.lexString : Bytes → Option (Bytes × Bytes)
  | [] => none
  | c :: cs =>
    if c = 34 then some ([], cs)
    else if c = 92 then
      match cs with
      | [] => none
      | e :: cs1 =>
        if e = 117 then
          match cs1 with
          | h1 :: h2 :: h3 :: h4 :: cs2 =>
            if json.isHex h1 && json.isHex h2 && json.isHex h3 && json.isHex h4 then
              match json.lexString cs2 with
              | some (s, r) => some (92 :: 117 :: h1 :: h2 :: h3 :: h4 :: s, r)
              | none => none
            else none
          | _ => none
        else if e = 34 ∨ e = 92 ∨ e = 47 ∨ e = 98 ∨ e = 102 ∨ e = 110 ∨ e = 114 ∨ e = 116 then
          match json.lexString cs1 with
          | some (s, r) => some (92 :: e :: s, r)
          | none => none
        else none
    else if c < 32 then none
    else
      match json.lexString cs with
      | some (s, r) => some (c :: s, r)
      | none => none

/-- The leading decimal digits of a text, and the rest. -/
def json.takeDigits : Bytes → Bytes × Bytes
  | [] => ([], [])
  | c :: cs =>
    if 48 ≤ c ∧ c ≤ 57 then ((json.takeDigits cs).1.cons c, (json.takeDigits cs).2)
    else ([], c :: cs)

/-- The sign of an exponent, if any, and what follows it. -/
def json.takeSign : Bytes → Bytes × Bytes
  | [] => ([], [])
  | s :: r => if s = 43 ∨ s = 45 then ([s], r) else ([], s :: r)

/-- The minus sign of a number, if any, and what follows it. -/
def json.takeMinus : Bytes → Bytes × Bytes
  | [] => ([], [])
  | c :: r => if c = 45 then ([45], r) else ([], c :: r)

/-- The exponent of a number, if any, after the text `lit` read so far. -/
def json.lexExponent (lit r : Bytes) : Option (Bytes × Bytes) :=
  match r with
  | [] => some (lit, [])
  | e :: r1 =>
    if e = 101 ∨ e = 69 then
      let signed := json.takeSign r1
      let ds := json.takeDigits signed.2
      if ds.1 = [] then none else some (lit ++ e :: signed.1 ++ ds.1, ds.2)
    else some (lit, e :: r1)

/-- The fraction of a number, if any, then its exponent. -/
def json.lexFraction (lit r : Bytes) : Option (Bytes × Bytes) :=
  match r with
  | [] => some (lit, [])
  | d :: r1 =>
    if d = 46 then
      let ds := json.takeDigits r1
      if ds.1 = [] then none else json.lexExponent (lit ++ 46 :: ds.1) ds.2
    else json.lexExponent lit (d :: r1)

/-- The scanner on a number: its text and what follows.  `none`: a lone `-`, a
fraction or exponent without digits. -/
def json.lexNumber (s : Bytes) : Option (Bytes × Bytes) :=
  let signed := json.takeMinus s
  match signed.2 with
  | [] => none
  | d :: r =>
    if d = 48 then json.lexFraction (signed.1 ++ [48]) r
    else if 49 ≤ d ∧ d ≤ 57 then
      let ds := json.takeDigits r
      json.lexFraction (signed.1 ++ d :: ds.1) ds.2
    else none

/-- `s` without the leading text `lit`, if it starts with it. -/
def json.dropLiteral : Bytes → Bytes → Option Bytes
  | [], s => some s
  | _ :: _, [] => none
  | l :: ls, c :: cs => if l = c then json.dropLiteral ls cs else none

/-- The tokens of a text; `fuel` bounds the number of tokens and spaces. -/
def json.lex : Nat → Bytes → Option (List JSONToken)
  | 0, _ => none
  | _ + 1, [] => some []
  | fuel + 1, c :: cs =>
    let next (t : JSONToken) (rest : Bytes) : Option (List JSONToken) :=
      match json.lex fuel rest with
      | some ts => some (t :: ts)
      | none => none
    if json.isSpace c then json.lex fuel cs
    else if c = 123 then next JSONToken.beginObject cs
    else if c = 125 then next JSONToken.endObject cs
    else if c = 91 then next JSONToken.beginArray cs
    else if c = 93 then next JSONToken.endArray cs
    else if c = 58 then next JSONToken.colon cs
    else if c = 44 then next JSONToken.comma cs
    else if c = 34 then
      match json.lexString cs with
      | some (s, r) => next (JSONToken.string s) r
      | none => none
    else if c = 45 ∨ (48 ≤ c ∧ c ≤ 57) then
      match json.lexNumber (c :: cs) with
      | some (s, r) => next (JSONToken.number s) r
      | none => none
    else if c = 116 then
      match json.dropLiteral [114, 117, 101] cs with
      | some r => next JSONToken.litTrue r
      | none => none
    else if c = 102 then
      match json.dropLiteral [97, 108, 115, 101] cs with
      | some r => next JSONToken.litFalse r
      | none => none
    else if c = 110 then
      match json.dropLiteral [117, 108, 108] cs with
      | some r => next JSONToken.litNull r
      | none => none
    else none

/-- An array or object that is still open, with what was read of it (last first);
an object also holds the key whose value is awaited. -/
inductive JSONFrame where
  | arr (acc : List JSONValue)
  | obj (acc : List (Bytes × JSONValue)) (key : Option Bytes)

/-- What the scanner may read next. -/
inductive JSONExpect where
  | value
  | valueOrEndArray
  | keyOrEndObject
  | key
  | colon
  | commaOrEnd
  | done
deriving DecidableEq

/-- The scanner's state: the open arrays and objects (innermost first), what may
come next, and the top-level value once it is complete. -/
structure JSONState where
  stack : List JSONFrame
  expect : JSONExpect
  result : Option JSONValue

/-- The scanner's `maxNestingDepth`. -/
def json.maxNestingDepth : Nat := 10000

/-- A value is complete: it goes to the innermost open array or object, or it is
the top-level value. -/
def json.deliver (stack : List JSONFrame) (v : JSONValue) : Option JSONState :=
  match stack with
  | [] => some ⟨[], JSONExpect.done, some v⟩
  | JSONFrame.arr acc :: fs => some ⟨JSONFrame.arr (v :: acc) :: fs, JSONExpect.commaOrEnd, none⟩
  | JSONFrame.obj acc (some k) :: fs =>
    some ⟨JSONFrame.obj ((k, v) :: acc) none :: fs, JSONExpect.commaOrEnd, none⟩
  | JSONFrame.obj _ none :: _ => none

/-- The start of a value. -/
def json.beginValue (st : JSONState) (t : JSONToken) : Option JSONState :=
  match t with
  | JSONToken.string s => json.deliver st.stack (JSONValue.string s)
  | JSONToken.number s => json.deliver st.stack (JSONValue.number s)
  | JSONToken.litTrue => json.deliver st.stack (JSONValue.bool true)
  | JSONToken.litFalse => json.deliver st.stack (JSONValue.bool false)
  | JSONToken.litNull => json.deliver st.stack JSONValue.null
  | JSONToken.beginArray =>
    if st.stack.length + 1 ≤ json.maxNestingDepth then
      some ⟨JSONFrame.arr [] :: st.stack, JSONExpect.valueOrEndArray, none⟩
    else none
  | JSONToken.beginObject =>
    if st.stack.length + 1 ≤ json.maxNestingDepth then
      some ⟨JSONFrame.obj [] none :: st.stack, JSONExpect.keyOrEndObject, none⟩
    else none
  | _ => none

/-- The innermost open array or object ends. -/
def json.endValue (st : JSONState) (t : JSONToken) : Option JSONState :=
  match t, st.stack with
  | JSONToken.endArray, JSONFrame.arr acc :: fs => json.deliver fs (JSONValue.array acc.reverse)
  | JSONToken.endObject, JSONFrame.obj acc none :: fs =>
    json.deliver fs (JSONValue.object acc.reverse)
  | _, _ => none

/-- One step of the scanner; `none` is a syntax error. -/
def json.step (st : JSONState) (t : JSONToken) : Option JSONState :=
  match st.expect with
  | JSONExpect.value => json.beginValue st t
  | JSONExpect.valueOrEndArray =>
    match t with
    | JSONToken.endArray => json.endValue st t
    | _ => json.beginValue st t
  | JSONExpect.keyOrEndObject =>
    match t, st.stack with
    | JSONToken.endObject, _ => json.endValue st t
    | JSONToken.string k, JSONFrame.obj acc none :: fs =>
      some ⟨JSONFrame.obj acc (some k) :: fs, JSONExpect.colon, none⟩
    | _, _ => none
  | JSONExpect.key =>
    match t, st.stack with
    | JSONToken.string k, JSONFrame.obj acc none :: fs =>
      some ⟨JSONFrame.obj acc (some k) :: fs, JSONExpect.colon, none⟩
    | _, _ => none
  | JSONExpect.colon =>
    match t with
    | JSONToken.colon => some { st with expect := JSONExpect.value }
    | _ => none
  | JSONExpect.commaOrEnd =>
    match t, st.stack with
    | JSONToken.comma, JSONFrame.arr _ :: _ => some { st with expect := JSONExpect.value }
    | JSONToken.comma, JSONFrame.obj _ _ :: _ => some { st with expect := JSONExpect.key }
    | JSONToken.endArray, _ => json.endValue st t
    | JSONToken.endObject, _ => json.endValue st t
    | _, _ => none
  | JSONExpect.done => none

/-- The scanner over all tokens: the top-level value of a valid text. -/
def json.run : JSONState → List JSONToken → Option JSONValue
  | st, [] => if st.expect = JSONExpect.done then st.result else none
  | st, t :: ts =>
    match json.step st t with
    | some st1 => json.run st1 ts
    | none => none

/-- The value of a JSON text; `none` when `checkValid` reports a syntax error. -/
def json.parse (data : Bytes) : Option JSONValue :=
  match json.lex (data.length + 1) data with
  | some ts => json.run ⟨[], JSONExpect.value, none⟩ ts
  | none => none

/-- The value of a hexadecimal digit. -/
def json.hexValue (c : Nat) : Nat :=
  if 48 ≤ c ∧ c ≤ 57 then c - 48
  else if 97 ≤ c ∧ c ≤ 102 then c - 87
  else c - 55

/-- `utf8.EncodeRune` (a surrogate or a value past U+10FFFF is written as U+FFFD). -/
def utf8.EncodeRune (r : Nat) : Bytes :=
  if r < 128 then [r]
  else if r < 2048 then [192 + r / 64, 128 + r % 64]
  else if (55296 ≤ r ∧ r ≤ 57343) ∨ 1114111 < r then [239, 191, 189]
  else if r < 65536 then [224 + r / 4096, 128 + r / 64 % 64, 128 + r % 64]
  else [240 + r / 262144, 128 + r / 4096 % 64, 128 + r / 64 % 64, 128 + r % 64]

/-- `unquoteBytes` on the source text of a string that the scanner accepted,
as a loop over the text.  Escapes are resolved, a `\u` escape to the UTF-8 of its
rune.  `hi` holds the high surrogate of a `\u` escape just read: with the low
surrogate of a `\u` escape right after it, it makes one rune; otherwise it is
written as U+FFFD, as is a low surrogate on its own.  Bytes of 128 and more are
kept as they are (Go rewrites ill-formed UTF-8 as U+FFFD, which like them is
neither an ASCII letter nor in the base64 alphabet). -/
def json.unquoteFrom : Option Nat → Bytes → Bytes
  | hi, [] => if hi.isSome then [239, 191, 189] else []
  | hi, c :: cs =>
    let pending : Bytes := if hi.isSome then [239, 191, 189] else []
    if c = 92 then
      match cs with
      | [] => pending
      | e :: cs1 =>
        if e = 117 then
          match cs1 with
          | h1 :: h2 :: h3 :: h4 :: cs2 =>
            let rr := json.hexValue h1 * 4096 + json.hexValue h2 * 256 + json.hexValue h3 * 16
              + json.hexValue h4
            match hi with
            | some h =>
              if 56320 ≤ rr ∧ rr ≤ 57343 then
                utf8.EncodeRune ((h - 55296) * 1024 + (rr - 56320) + 65536)
                  ++ json.unquoteFrom none cs2
              else if 55296 ≤ rr ∧ rr < 56320 then
                [239, 191, 189] ++ json.unquoteFrom (some rr) cs2
              else [239, 191, 189] ++ utf8.EncodeRune rr ++ json.unquoteFrom none cs2
            | none =>
              if 55296 ≤ rr ∧ rr < 56320 then json.unquoteFrom (some rr) cs2
              else utf8.EncodeRune rr ++ json.unquoteFrom none cs2
          | _ => pending
        else
          let b := if e = 98 then 8 else if e = 102 then 12 else if e = 110 then 10
            else if e = 114 then 13 else if e = 116 then 9 else e
          pending ++ b :: json.unquoteFrom none cs1
    else pending ++ c :: json.unquoteFrom none cs

/-- `unquoteBytes` on the source text of a string that the scanner accepted. -/
def json.unquote (raw : Bytes) : Bytes :=
  json.unquoteFrom none raw

/-- The `equalFold` of the field `public` (`simpleLetterEqualFold`: all its letters are
ASCII and none is `k` or `s`): equal lengths, and bytewise equal once the bit of value 32 is
cleared. -/
def json.simpleLetterEqualFold : Bytes → Bytes → Bool
  | [], [] => true
  | b :: s, c :: t =>
    (b &&& 223) == (c &&& 223) && json.simpleLetterEqualFold s t
  | _, _ => false

/-- The JSON name of the only exported field of `rsaVerifier`: `public`. -/
def json.fieldName : Bytes := [112, 117, 98, 108, 105, 99]

/-- Whether a key names the field `PublicKey`: the exact name, or else a case-folded match. -/
def json.isPublicKeyField (key : Bytes) : Bool :=
  key = json.fieldName || json.simpleLetterEqualFold json.fieldName key

/-- The decimal value of a text of digits; `none` if a byte is not a digit. -/
def json.parseDigits : Nat → Bytes → Option Nat
  | acc, [] => some acc
  | acc, c :: cs => if 48 ≤ c ∧ c ≤ 57 then json.parseDigits (acc * 10 + (c - 48)) cs else none

/-- An element of a JSON array stored into a `uint8` whose value was `old`: the new
value and whether an `UnmarshalTypeError` was saved.  A number is stored when
`strconv.ParseUint` reads it and it fits eight bits; `null` has no effect; anything
else is a type error. -/
def json.storeUint8 (old : Nat) (v : JSONValue) : Nat × Bool :=
  match v with
  | JSONValue.null => (old, false)
  | JSONValue.number lit =>
    match lit, json.parseDigits 0 lit with
    | _ :: _, some n => if n ≤ 255 then (n, false) else (old, true)
    | _, _ => (old, true)
  | _ => (old, true)

/-- `decodeState.array` into a `[]byte` with current content `cur`: element `i` is
stored into position `i`, which before holds `cur[i]`, or zero past the end of `cur`
(the backing array past the length is taken to be zero).  The result has one byte
per element. -/
def json.storeArray : Bytes → List JSONValue → Bytes × Bool
  | _, [] => ([], false)
  | cur, v :: vs =>
    let e := json.storeUint8 (cur.headD 0) v
    let r := json.storeArray cur.tail vs
    (e.1 :: r.1, e.2 || r.2)

/-- An error of `encoding/json` or `encoding/base64`, by kind.  (Go's text also
holds offsets and type names; `rsa.go` drops the error.) -/
def json.typeError : GoError := errors.New "json: cannot unmarshal value into Go value"

/-- A `SyntaxError` of `checkValid`. -/
def json.syntaxError : GoError := errors.New "json: syntax error"

/-- A `base64.CorruptInputError`. -/
def base64.corruptInputError : GoError := errors.New "illegal base64 data"

/-- `decodeState.value` into the field `PublicKey []byte` with current content `cur`:
the new content and the error saved, if any.  A string is base64-decoded
(`literalStore`), `null` sets the slice to nil, an array is stored element by
element; a boolean, a number or an object is a type error and leaves the field. -/
def json.storePublicKey (cur : Bytes) (v : JSONValue) : Bytes × Option GoError :=
  match v with
  | JSONValue.null => ([], none)
  | JSONValue.string raw =>
    match base64.Decode (json.unquote raw) with
    | some b => (b, none)
    | none => (cur, some base64.corruptInputError)
  | JSONValue.array elems =>
    let r := json.storeArray cur elems
    (r.1, if r.2 then some json.typeError else none)
  | _ => (cur, some json.typeError)

/-- `decodeState.object` into the struct: the members in order, each whose key names
`PublicKey` stored into it, the others skipped; the first error saved is kept. -/
def json.storeMembers : Bytes → Option GoError → List (Bytes × JSONValue) → Bytes × Option GoError
  | cur, saved, [] => (cur, saved)
  | cur, saved, (k, v) :: ms =>
    if json.isPublicKeyField (json.unquote k) then
      let r := json.storePublicKey cur v
      json.storeMembers r.1 (if saved.isSome then saved else r.2) ms
    else json.storeMembers cur saved ms

/-- `json.Unmarshal(data, p)` for `p *rsaVerifier` whose `PublicKey` is `cur`: the
`PublicKey` after the call and the error returned.  A text that is not valid JSON
is a syntax error and nothing is stored; a top-level `null` has no effect; an
object is stored member by member; any other top-level value is a type error. -/
def json.Unmarshal (data cur : Bytes) : Bytes × Option GoError :=
  match json.parse data with
  | none => (cur, some json.syntaxError)
  | some JSONValue.null => (cur, none)
  | some (JSONValue.object members) => json.storeMembers cur none members
  | some _ => (cur, some json.typeError)

/-! ## `encoding/pem`: `Decode` -/

/-- `bytes.HasPrefix`. -/
def bytes.HasPrefix : Bytes → Bytes → Bool
  | _, [] => true
  | [], _ :: _ => false
  | c :: s, d :: t => c == d && bytes.HasPrefix s t

/-- `bytes.HasSuffix`. -/
def bytes.HasSuffix (s t : Bytes) : Bool :=
  bytes.HasPrefix s.reverse t.reverse

/-- `bytes.Index`: the index of the first instance of `sep` in `s`. -/
def bytes.Index : Bytes → Bytes → Option Nat
  | [], sep => if sep = [] then some 0 else none
  | c :: s, sep =>
    if bytes.HasPrefix (c :: s) sep then some 0
    else
      match bytes.Index s sep with
      | some i => some (i + 1)
      | none => none

/-- `bytes.TrimRight(s, " \t")`. -/
def bytes.trimRightBlank (s : Bytes) : Bytes :=
  (s.reverse.dropWhile (fun c => c = 32 || c = 9)).reverse

/-- The marker `pemStart`: a newline, five dashes and `BEGIN `. -/
def pem.pemStart : Bytes := [10, 45, 45, 45, 45, 45, 66, 69, 71, 73, 78, 32]

/-- The marker `pemEnd`: a newline, five dashes and `END `. -/
def pem.pemEnd : Bytes := [10, 45, 45, 45, 45, 45, 69, 78, 68, 32]

/-- The marker `pemEndOfLine`: five dashes. -/
def pem.pemEndOfLine : Bytes := [45, 45, 45, 45, 45]

/-- `getLine`: the first line of `data` without its line end (`\n` or `\r\n`) and
without trailing spaces and tabs, and what follows the line. -/
def pem.getLine (data : Bytes) : Bytes × Bytes :=
  match bytes.Index data [10] with
  | none => (bytes.trimRightBlank data, [])
  | some i =>
    let i1 := if 0 < i ∧ data.getD (i - 1) 0 = 13 then i - 1 else i
    (bytes.trimRightBlank (data.take i1), data.drop (i + 1))

/-- `removeSpacesAndTabs`. -/
def pem.removeSpacesAndTabs (data : Bytes) : Bytes :=
  data.filter (fun b => !(b = 32 || b = 9))

/-- The header loop of `Decode`: lines with a colon are headers and are passed over.
`none`: the input ended (Decode then returns no block); otherwise whether a header
was read, and the input from the first line without a colon on. -/
def pem.skipHeaders : Nat → Bool → Bytes → Option (Bool × Bytes)
  | 0, _, _ => none
  | fuel + 1, seen, rest =>
    if rest = [] then none
    else
      let ln := pem.getLine rest
      if ln.1.contains 58 then pem.skipHeaders fuel true ln.2
      else some (seen, rest)

/-- How one round of the loop of `Decode` ends: with the result of `Decode`, or with the
input from which the next round starts over. -/
inductive pem.Round where
  | done (p : Option Block) (rest : Bytes)
  | again (rest : Bytes)
deriving DecidableEq, Repr

/-- One round of the loop of `Decode` from `rest` on; `data` is the whole input,
returned as the rest when no block is found. -/
def pem.decodeRound (data rest : Bytes) : pem.Round :=
  let start : Option Bytes :=
    if bytes.HasPrefix rest pem.pemStart.tail then some (rest.drop (pem.pemStart.length - 1))
    else
      match bytes.Index rest pem.pemStart with
      | some i => some (rest.drop (i + pem.pemStart.length))
      | none => none
  match start with
  | none => pem.Round.done none data
  | some rest1 =>
    let tl := pem.getLine rest1
    let rest2 := tl.2
    if !bytes.HasSuffix tl.1 pem.pemEndOfLine then pem.Round.again rest2
    else
      let typeLine := tl.1.take (tl.1.length - pem.pemEndOfLine.length)
      match pem.skipHeaders (rest2.length + 1) false rest2 with
      | none => pem.Round.done none data
      | some (hasHeaders, rest3) =>
        let ends : Option (Nat × Nat) :=
          if !hasHeaders && bytes.HasPrefix rest3 pem.pemEnd.tail then
            some (0, pem.pemEnd.length - 1)
          else
            match bytes.Index rest3 pem.pemEnd with
            | some i => some (i, i + pem.pemEnd.length)
            | none => none
        match ends with
        | none => pem.Round.again rest3
        | some (endIndex, endTrailerIndex) =>
          let endTrailer := rest3.drop endTrailerIndex
          let endTrailerLen := typeLine.length + pem.pemEndOfLine.length
          if endTrailer.length < endTrailerLen then pem.Round.again rest3
          else
            let restOfEndLine := endTrailer.drop endTrailerLen
            let endTrailer1 := endTrailer.take endTrailerLen
            if !bytes.HasPrefix endTrailer1 typeLine
                || !bytes.HasSuffix endTrailer1 pem.pemEndOfLine then
              pem.Round.again rest3
            else if (pem.getLine restOfEndLine).1 ≠ [] then pem.Round.again rest3
            else
              match base64.Decode (pem.removeSpacesAndTabs (rest3.take endIndex)) with
              | none => pem.Round.again rest3
              | some b =>
                pem.Round.done (some ⟨typeLine, b⟩)
                  (pem.getLine (rest3.drop (endIndex + pem.pemEnd.length - 1))).2

/-- The loop of `Decode` from `rest` on. -/
def pem.decodeFrom : Nat → Bytes → Bytes → Option Block × Bytes
  | 0, data, _ => (none, data)
  | fuel + 1, data, rest =>
    match pem.decodeRound data rest with
    | pem.Round.done p r => (p, r)
    | pem.Round.again rest1 => pem.decodeFrom fuel data rest1

/-- `pem.Decode`: the first PEM block of the input and the rest of the input, or no
block and the whole input.  (Every round of the loop passes over a begin marker,
so it ends within `data.length` rounds.) -/
def pem.Decode (data : Bytes) : Option Block × Bytes :=
  pem.decodeFrom (data.length + 1) data data

/-! ## `encoding/asn1`: the DER parsing that `crypto/x509` uses for public keys -/

/-- A `SyntaxError` or `StructuralError` of `encoding/asn1`. -/
def asn1.error (text : String) : GoError := errors.New ("asn1: " ++ text)

/-- `tagAndLength`. -/
structure asn1.tagAndLength where
  cls : Nat
  tag : Nat
  length : Nat
  isCompound : Bool
deriving DecidableEq, Repr

/-- The loop of `parseBase128Int`: `shifted` bytes read so far, with value `ret`. -/
def asn1.parseBase128From : Nat → Nat → Bytes → Except GoError (Nat × Bytes)
  | _, _, [] => Except.error (asn1.error "truncated base 128 integer")
  | shifted, ret, b :: bs =>
    if shifted = 5 then Except.error (asn1.error "base 128 integer too large")
    else if shifted = 0 ∧ b = 128 then
      Except.error (asn1.error "integer is not minimally encoded")
    else
      let ret1 := ret * 128 + b % 128
      if b < 128 then
        if 2147483647 < ret1 then Except.error (asn1.error "base 128 integer too large")
        else Except.ok (ret1, bs)
      else asn1.parseBase128From (shifted + 1) ret1 bs

/-- `parseBase128Int`: the value and the bytes after it. -/
def asn1.parseBase128Int (bytes : Bytes) : Except GoError (Nat × Bytes) :=
  asn1.parseBase128From 0 0 bytes

/-- The loop of `parseTagAndLength` over the `numBytes` bytes of a long-form length. -/
def asn1.parseLengthFrom : Nat → Nat → Bytes → Except GoError (Nat × Bytes)
  | 0, length, bs =>
    if length < 128 then Except.error (asn1.error "non-minimal length")
    else Except.ok (length, bs)
  | _ + 1, _, [] => Except.error (asn1.error "truncated tag or length")
  | numBytes + 1, length, b :: bs =>
    if 8388608 ≤ length then Except.error (asn1.error "length too large")
    else if length * 256 + b = 0 then
      Except.error (asn1.error "superfluous leading zeros in length")
    else asn1.parseLengthFrom numBytes (length * 256 + b) bs

/-- `parseTagAndLength`: the tag and length at the head of `bytes`, and the bytes
after them. -/
def asn1.parseTagAndLength (bytes : Bytes) : Except GoError (asn1.tagAndLength × Bytes) :=
  match bytes with
  | [] => Except.error (asn1.error "internal error in parseTagAndLength")
  | b :: bs =>
    let cls := b / 64
    let isCompound := b / 32 % 2 = 1
    let tagged : Except GoError (Nat × Bytes) :=
      if b % 32 = 31 then
        match asn1.parseBase128Int bs with
        | Except.error e => Except.error e
        | Except.ok (tag, bs1) =>
          if tag < 31 then Except.error (asn1.error "non-minimal tag") else Except.ok (tag, bs1)
      else Except.ok (b % 32, bs)
    match tagged with
    | Except.error e => Except.error e
    | Except.ok (_, []) => Except.error (asn1.error "truncated tag or length")
    | Except.ok (tag, l :: bs2) =>
      if l < 128 then Except.ok (⟨cls, tag, l, isCompound⟩, bs2)
      else if l % 128 = 0 then Except.error (asn1.error "indefinite length found (not DER)")
      else
        match asn1.parseLengthFrom (l % 128) 0 bs2 with
        | Except.error e => Except.error e
        | Except.ok (length, bs3) => Except.ok (⟨cls, tag, length, isCompound⟩, bs3)

/-- The head of `parseField` for a field that is neither optional nor `ANY`: the tag
must be of the universal class with number `tag` and the given form, and the content
must lie within the input.  Yields the content and the bytes after the element. -/
def asn1.parseElement (tag : Nat) (compound : Bool) (bytes : Bytes) :
    Except GoError (Bytes × Bytes) :=
  if bytes = [] then Except.error (asn1.error "sequence truncated")
  else
    match asn1.parseTagAndLength bytes with
    | Except.error e => Except.error e
    | Except.ok (t, bs) =>
      if t.cls ≠ 0 ∨ t.tag ≠ tag ∨ t.isCompound ≠ compound then
        Except.error (asn1.error "tags don\x27t match")
      else if bs.length < t.length then Except.error (asn1.error "data truncated")
      else Except.ok (bs.take t.length, bs.drop t.length)

/-- `checkInteger`. -/
def asn1.checkInteger (bytes : Bytes) : Option GoError :=
  match bytes with
  | [] => some (asn1.error "empty integer")
  | [_] => none
  | b0 :: b1 :: _ =>
    if (b0 = 0 ∧ b1 < 128) ∨ (b0 = 255 ∧ 128 ≤ b1) then
      some (asn1.error "integer not minimally-encoded")
    else none

/-- `big.Int.SetBytes`: the big-endian value of the bytes. -/
def big.SetBytes (bytes : Bytes) : Nat :=
  bytes.foldl (fun acc b => acc * 256 + b) 0

/-- The value of a big-endian byte string, not empty, read as a signed number. -/
def asn1.twosComplement (bytes : Bytes) : Int :=
  if 128 ≤ bytes.headD 0 then (big.SetBytes bytes : Int) - (256 ^ bytes.length : Nat)
  else (big.SetBytes bytes : Int)

/-- `parseBigInt`. -/
def asn1.parseBigInt (bytes : Bytes) : Except GoError Int :=
  match asn1.checkInteger bytes with
  | some e => Except.error e
  | none => Except.ok (asn1.twosComplement bytes)

/-- `parseInt64`. -/
def asn1.parseInt64 (bytes : Bytes) : Except GoError Int :=
  match asn1.checkInteger bytes with
  | some e => Except.error e
  | none =>
    if 8 < bytes.length then Except.error (asn1.error "integer too large")
    else Except.ok (asn1.twosComplement bytes)

/-- `parseField` for a `*big.Int` field: the value and the bytes after it. -/
def asn1.parseBigIntField (bytes : Bytes) : Except GoError (Int × Bytes) :=
  match asn1.parseElement 2 false bytes with
  | Except.error e => Except.error e
  | Except.ok (inner, rest) =>
    match asn1.parseBigInt inner with
    | Except.error e => Except.error e
    | Except.ok n => Except.ok (n, rest)

/-- `parseField` for an `int` field (64 bits wide). -/
def asn1.parseIntField (bytes : Bytes) : Except GoError (Int × Bytes) :=
  match asn1.parseElement 2 false bytes with
  | Except.error e => Except.error e
  | Except.ok (inner, rest) =>
    match asn1.parseInt64 inner with
    | Except.error e => Except.error e
    | Except.ok n => Except.ok (n, rest)

/-- The loop of `parseObjectIdentifier` after the first value. -/
def asn1.parseArcs : Nat → Bytes → Except GoError (List Nat)
  | 0, _ => Except.error (asn1.error "truncated base 128 integer")
  | fuel + 1, bytes =>
    if bytes = [] then Except.ok []
    else
      match asn1.parseBase128Int bytes with
      | Except.error e => Except.error e
      | Except.ok (v, rest) =>
        match asn1.parseArcs fuel rest with
        | Except.error e => Except.error e
        | Except.ok vs => Except.ok (v :: vs)

/-- `parseObjectIdentifier`. -/
def asn1.parseObjectIdentifier (bytes : Bytes) : Except GoError (List Nat) :=
  if bytes = [] then Except.error (asn1.error "zero length OBJECT IDENTIFIER")
  else
    match asn1.parseBase128Int bytes with
    | Except.error e => Except.error e
    | Except.ok (v, rest) =>
      match asn1.parseArcs (rest.length + 1) rest with
      | Except.error e => Except.error e
      | Except.ok vs =>
        if v < 80 then Except.ok (v / 40 :: v % 40 :: vs) else Except.ok (2 :: (v - 80) :: vs)

/-- `asn1.BitString`. -/
structure asn1.BitString where
  Bytes : Bytes
  BitLength : Nat
deriving DecidableEq, Repr

/-- `parseBitString`. -/
def asn1.parseBitString (bytes : Bytes) : Except GoError asn1.BitString :=
  match bytes with
  | [] => Except.error (asn1.error "zero length BIT STRING")
  | paddingBits :: bs =>
    if 7 < paddingBits ∨ (bs = [] ∧ 0 < paddingBits)
        ∨ (paddingBits :: bs).getLastD 0 % 2 ^ paddingBits ≠ 0 then
      Except.error (asn1.error "invalid padding bits in BIT STRING")
    else Except.ok ⟨bs, bs.length * 8 - paddingBits⟩

/-- The loop of `BitString.RightAlign`: every byte shifted right by `shift` bits, its
high bits filled from the low bits of the byte before it, `prev`. -/
def asn1.shiftRight (shift : Nat) : Nat → Bytes → Bytes
  | _, [] => []
  | prev, b :: bs => (prev * 2 ^ (8 - shift) % 256 + b / 2 ^ shift) :: asn1.shiftRight shift b bs

/-- `BitString.RightAlign`. -/
def asn1.BitString.RightAlign (b : asn1.BitString) : Keys.Bytes :=
  let shift := 8 - b.BitLength % 8
  if shift = 8 ∨ b.Bytes = [] then b.Bytes else asn1.shiftRight shift 0 b.Bytes

/-- `pkcs1PublicKey` of `crypto/x509`: a SEQUENCE of the INTEGERs `N` (`*big.Int`) and
`E` (`int`).  `asn1.Unmarshal` into it: the two values and the bytes after the
SEQUENCE.  Bytes after `E` inside the SEQUENCE are allowed. -/
def asn1.unmarshalPkcs1PublicKey (der : Bytes) : Except GoError ((Int × Int) × Bytes) :=
  match asn1.parseElement 16 true der with
  | Except.error e => Except.error e
  | Except.ok (inner, rest) =>
    match asn1.parseBigIntField inner with
    | Except.error e => Except.error e
    | Except.ok (n, inner1) =>
      match asn1.parseIntField inner1 with
      | Except.error e => Except.error e
      | Except.ok (e, _) => Except.ok ((n, e), rest)

/-- `pkix.AlgorithmIdentifier`: the object identifier, and the full bytes of the
optional parameters (an `asn1.RawValue`; empty when absent). -/
structure pkix.AlgorithmIdentifier where
  Algorithm : List Nat
  Parameters : Bytes
deriving DecidableEq, Repr

/-- `parseField` for the optional `asn1.RawValue` of the parameters: any one element,
kept with its tag and length; absent at the end of the input. -/
def asn1.parseOptionalRawValue (bytes : Bytes) : Except GoError Bytes :=
  if bytes = [] then Except.ok []
  else
    match asn1.parseTagAndLength bytes with
    | Except.error e => Except.error e
    | Except.ok (t, bs) =>
      if bs.length < t.length then Except.error (asn1.error "data truncated")
      else Except.ok (bytes.take (bytes.length - bs.length + t.length))

/-- `publicKeyInfo` of `crypto/x509`: SEQUENCE of the algorithm identifier (a SEQUENCE of
an OBJECT IDENTIFIER and optional parameters) and the BIT STRING of the key.
`asn1.Unmarshal` into it: the fields and the bytes after the outer SEQUENCE. -/
def asn1.unmarshalPublicKeyInfo (der : Bytes) :
    Except GoError ((pkix.AlgorithmIdentifier × asn1.BitString) × Bytes) :=
  match asn1.parseElement 16 true der with
  | Except.error e => Except.error e
  | Except.ok (inner, rest) =>
    match asn1.parseElement 16 true inner with
    | Except.error e => Except.error e
    | Except.ok (algo, inner1) =>
      match asn1.parseElement 6 false algo with
      | Except.error e => Except.error e
      | Except.ok (oidBytes, algo1) =>
        match asn1.parseObjectIdentifier oidBytes with
        | Except.error e => Except.error e
        | Except.ok oid =>
          match asn1.parseOptionalRawValue algo1 with
          | Except.error e => Except.error e
          | Except.ok params =>
            match asn1.parseElement 3 false inner1 with
            | Except.error e => Except.error e
            | Except.ok (bits, _) =>
              match asn1.parseBitString bits with
              | Except.error e => Except.error e
              | Except.ok bitString => Except.ok ((⟨oid, params⟩, bitString), rest)

/-! ## `crypto/x509`: parsing and marshalling public keys -/

/-- `x509.ParsePKCS1PublicKey`. -/
def x509.ParsePKCS1PublicKey (der : Bytes) : Except GoError RsaPublicKey :=
  match asn1.unmarshalPkcs1PublicKey der with
  | Except.error e =>
    match asn1.unmarshalPublicKeyInfo der with
    | Except.ok _ =>
      Except.error (errors.New ("x509: failed to parse public key "
        ++ "(use ParsePKIXPublicKey instead for this key format)"))
    | Except.error _ => Except.error e
  | Except.ok (pub, rest) =>
    if rest ≠ [] then Except.error (asn1.error "trailing data")
    else if pub.1 ≤ 0 ∨ pub.2 ≤ 0 then
      Except.error (errors.New "x509: public key contains zero or negative value")
    else if 2147483647 < pub.2 then
      Except.error (errors.New "x509: public key contains large public exponent")
    else Except.ok ⟨pub.1, pub.2⟩

/-- The object identifiers of the public key algorithms that `x509` knows. -/
def x509.oidPublicKeyRSA : List Nat := [1, 2, 840, 113549, 1, 1, 1]

/-- The object identifier of DSA keys. -/
def x509.oidPublicKeyDSA : List Nat := [1, 2, 840, 10040, 4, 1]

/-- The object identifier of ECDSA keys. -/
def x509.oidPublicKeyECDSA : List Nat := [1, 2, 840, 10045, 2, 1]

/-- The object identifier of Ed25519 keys. -/
def x509.oidPublicKeyEd25519 : List Nat := [1, 3, 101, 112]

/-- `elliptic.CurveParams` of a curve `y² = x³ - 3x + b` over the field of `P` elements. -/
structure elliptic.CurveParams where
  P : Nat
  B : Nat
  BitSize : Nat
deriving DecidableEq, Repr

/-- `namedCurveFromOID`: P-224, P-256, P-384 and P-521. -/
def x509.namedCurveFromOID (oid : List Nat) : Option elliptic.CurveParams :=
  if oid = [1, 3, 132, 0, 33] then
    some ⟨26959946667150639794667015087019630673557916260026308143510066298881,
      18958286285566608000408668544493926415504680968679321075787234672564, 224⟩
  else if oid = [1, 2, 840, 10045, 3, 1, 7] then
    some ⟨115792089210356248762697446949407573530086143415290314195533631308867097853951,
      41058363725152142129326129780047268409114441015993725554835256314039467401291, 256⟩
  else if oid = [1, 3, 132, 0, 34] then
    some ⟨39402006196394479212279040100143613805079739270465446667948293404245721771496870329047266088258938001861606973112319,
      27580193559959705877849011840389048093056905856361568521428707301988689241309860865136260764883745107765439761230575, 384⟩
  else if oid = [1, 3, 132, 0, 35] then
    some ⟨6864797660130609714981900799081393217269435300143305409394463459185543183397656052122559640661454554977296311391480858037121987999716643812574028291115057151,
      1093849038073734274511112390766805569936207598951683748994586394495953116150735016013708737573759623248592132296706313309438452531591012912142327488478985984, 521⟩
  else none

/-- `elliptic.Unmarshal`: whether the bytes are the uncompressed form of a point of the
curve. -/
def elliptic.Unmarshal (curve : elliptic.CurveParams) (data : Bytes) : Bool :=
  let byteLen := (curve.BitSize + 7) / 8
  if data.length ≠ 1 + 2 * byteLen then false
  else if data.headD 0 ≠ 4 then false
  else
    let x := big.SetBytes ((data.drop 1).take byteLen)
    let y := big.SetBytes (data.drop (1 + byteLen))
    if curve.P ≤ x ∨ curve.P ≤ y then false
    else y * y % curve.P = (x * x * x + (curve.P - 3) * x + curve.B) % curve.P

/-- `asn1.Unmarshal` into a `*big.Int`: the value and the bytes after it. -/
def asn1.unmarshalBigInt (der : Bytes) : Except GoError (Int × Bytes) :=
  asn1.parseBigIntField der

/-- `asn1.Unmarshal` into `dsaAlgorithmParameters`: a SEQUENCE of the INTEGERs P, Q, G. -/
def asn1.unmarshalDsaParameters (der : Bytes) : Except GoError ((Int × Int × Int) × Bytes) :=
  match asn1.parseElement 16 true der with
  | Except.error e => Except.error e
  | Except.ok (inner, rest) =>
    match asn1.parseBigIntField inner with
    | Except.error e => Except.error e
    | Except.ok (p, inner1) =>
      match asn1.parseBigIntField inner1 with
      | Except.error e => Except.error e
      | Except.ok (q, inner2) =>
        match asn1.parseBigIntField inner2 with
        | Except.error e => Except.error e
        | Except.ok (g, _) => Except.ok ((p, q, g), rest)

/-- `asn1.NullBytes`. -/
def asn1.NullBytes : Bytes := [5, 0]

/-- `parsePublicKey` of `crypto/x509`, by the algorithm of the key. -/
def x509.parsePublicKey (algo : pkix.AlgorithmIdentifier) (key : asn1.BitString) :
    Except GoError PublicKeyAny :=
  let asn1Data := key.RightAlign
  if algo.Algorithm = x509.oidPublicKeyRSA then
    if algo.Parameters ≠ asn1.NullBytes then
      Except.error (errors.New "x509: RSA key missing NULL parameters")
    else
      match asn1.unmarshalPkcs1PublicKey asn1Data with
      | Except.error e => Except.error e
      | Except.ok (p, rest) =>
        if rest ≠ [] then Except.error (errors.New "x509: trailing data after RSA public key")
        else if p.1 ≤ 0 then
          Except.error (errors.New "x509: RSA modulus is not a positive number")
        else if p.2 ≤ 0 then
          Except.error (errors.New "x509: RSA public exponent is not a positive number")
        else Except.ok (PublicKeyAny.rsa ⟨p.1, p.2⟩)
  else if algo.Algorithm = x509.oidPublicKeyDSA then
    match asn1.unmarshalBigInt asn1Data with
    | Except.error e => Except.error e
    | Except.ok (y, rest) =>
      if rest ≠ [] then Except.error (errors.New "x509: trailing data after DSA public key")
      else
        match asn1.unmarshalDsaParameters algo.Parameters with
        | Except.error e => Except.error e
        | Except.ok (params, rest1) =>
          if rest1 ≠ [] then
            Except.error (errors.New "x509: trailing data after DSA parameters")
          else if y ≤ 0 ∨ params.1 ≤ 0 ∨ params.2.1 ≤ 0 ∨ params.2.2 ≤ 0 then
            Except.error (errors.New "x509: zero or negative DSA parameter")
          else Except.ok (PublicKeyAny.other "DSA" asn1Data)
  else if algo.Algorithm = x509.oidPublicKeyECDSA then
    match asn1.parseElement 6 false algo.Parameters with
    | Except.error _ =>
      Except.error (errors.New "x509: failed to parse ECDSA parameters as named curve")
    | Except.ok (oidBytes, rest) =>
      match asn1.parseObjectIdentifier oidBytes with
      | Except.error _ =>
        Except.error (errors.New "x509: failed to parse ECDSA parameters as named curve")
      | Except.ok namedCurveOID =>
        if rest ≠ [] then Except.error (errors.New "x509: trailing data after ECDSA parameters")
        else
          match x509.namedCurveFromOID namedCurveOID with
          | none => Except.error (errors.New "x509: unsupported elliptic curve")
          | some namedCurve =>
            if elliptic.Unmarshal namedCurve asn1Data then
              Except.ok (PublicKeyAny.other "ECDSA" asn1Data)
            else Except.error (errors.New "x509: failed to unmarshal elliptic curve point")
  else if algo.Algorithm = x509.oidPublicKeyEd25519 then
    if algo.Parameters ≠ [] then
      Except.error (errors.New "x509: Ed25519 key encoded with illegal parameters")
    else if asn1Data.length ≠ 32 then
      Except.error (errors.New "x509: wrong Ed25519 public key size")
    else Except.ok (PublicKeyAny.other "Ed25519" asn1Data)
  else Except.error (errors.New "x509: unknown public key algorithm")

/-- `x509.ParsePKIXPublicKey`. -/
def x509.ParsePKIXPublicKey (derBytes : Bytes) : Except GoError PublicKeyAny :=
  match asn1.unmarshalPublicKeyInfo derBytes with
  | Except.error e =>
    match asn1.unmarshalPkcs1PublicKey derBytes with
    | Except.ok _ =>
      Except.error (errors.New ("x509: failed to parse public key "
        ++ "(use ParsePKCS1PublicKey instead for this key format)"))
    | Except.error _ => Except.error e
  | Except.ok (pki, rest) =>
    if rest ≠ [] then Except.error (errors.New "x509: trailing data after ASN.1 of public-key")
    else x509.parsePublicKey pki.1 pki.2

/-- The bytes of `big.Int.Bytes`: the big-endian digits of `n` in base 256, before `acc`. -/
def big.bytesFrom : Nat → Nat → Bytes → Bytes
  | 0, _, acc => acc
  | fuel + 1, n, acc => if n = 0 then acc else big.bytesFrom fuel (n / 256) (n % 256 :: acc)

/-- `big.Int.Bytes` of a natural number (`n` has at most `n` digits in base 256). -/
def big.Bytes (n : Nat) : Bytes :=
  big.bytesFrom n n []

/-- The content of a DER INTEGER, as `asn1.Marshal` writes a `*big.Int` or an `int`:
the shortest signed big-endian form. -/
def asn1.marshalInteger (n : Int) : Bytes :=
  if n < 0 then
    let bytes := (big.Bytes (-n - 1).toNat).map (fun b => 255 - b)
    if bytes = [] ∨ bytes.headD 0 < 128 then 255 :: bytes else bytes
  else if n = 0 then [0]
  else
    let bytes := big.Bytes n.toNat
    if 128 ≤ bytes.headD 0 then 0 :: bytes else bytes

/-- The length bytes of a DER element with `n` content bytes. -/
def asn1.marshalLength (n : Nat) : Bytes :=
  if n < 128 then [n] else (128 + (big.Bytes n).length) :: big.Bytes n

/-- A DER element of the universal class: identifier byte, length, content. -/
def asn1.marshalElement (identifier : Nat) (content : Bytes) : Bytes :=
  identifier :: asn1.marshalLength content.length ++ content

/-- `x509.MarshalPKIXPublicKey` on a `*rsa.PublicKey`: the SubjectPublicKeyInfo with the
algorithm rsaEncryption (NULL parameters) and, as BIT STRING, the SEQUENCE of the
INTEGERs `N` and `E`.  A nil key is dereferenced: a panic. -/
def x509.MarshalPKIXPublicKey (pub : Option RsaPublicKey) : Outcome (Except GoError Bytes) :=
  match pub with
  | none => Outcome.panic
  | some k =>
    let publicKeyBytes := asn1.marshalElement 48
      (asn1.marshalElement 2 (asn1.marshalInteger k.N) ++ asn1.marshalElement 2 (asn1.marshalInteger k.E))
    let algorithm := asn1.marshalElement 48
      (asn1.marshalElement 6 [42, 134, 72, 134, 247, 13, 1, 1, 1] ++ asn1.NullBytes)
    Outcome.ret (Except.ok (asn1.marshalElement 48
      (algorithm ++ asn1.marshalElement 3 (0 :: publicKeyBytes))))

/-! ## `crypto/sha256`: `Sum256` -/

/-- The round constants of SHA-256. -/
def sha256.K : List Nat :=
  [1116352408, 1899447441, 3049323471, 3921009573, 961987163, 1508970993, 2453635748, 2870763221,
   3624381080, 310598401, 607225278, 1426881987, 1925078388, 2162078206, 2614888103, 3248222580,
   3835390401, 4022224774, 264347078, 604807628, 770255983, 1249150122, 1555081692, 1996064986,
   2554220882, 2821834349, 2952996808, 3210313671, 3336571891, 3584528711, 113926993, 338241895,
   666307205, 773529912, 1294757372, 1396182291, 1695183700, 1986661051, 2177026350, 2456956037,
   2730485921, 2820302411, 3259730800, 3345764771, 3516065817, 3600352804, 4094571909, 275423344,
   430227734, 506948616, 659060556, 883997877, 958139571, 1322822218, 1537002063, 1747873779,
   1955562222, 2024104815, 2227730452, 2361852424, 2428436474, 2756734187, 3204031479, 3329325298]

/-- The initial hash value of SHA-256. -/
def sha256.init : List Nat :=
  [1779033703, 3144134277, 1013904242, 2773480762, 1359893119, 2600822924, 528734635, 1541459225]

/-- Rotation of a 32-bit word to the right. -/
def sha256.rotr (x n : Nat) : Nat :=
  (x / 2 ^ n + x * 2 ^ (32 - n)) % 4294967296

/-- The message schedule: the words `w` so far (last first; at least sixteen), extended by
`n` words. -/
def sha256.schedule : Nat → List Nat → List Nat
  | 0, w => w
  | n + 1, w =>
    let w2 := w.getD 1 0
    let w7 := w.getD 6 0
    let w15 := w.getD 14 0
    let w16 := w.getD 15 0
    let s0 := (sha256.rotr w15 7 ^^^ sha256.rotr w15 18) ^^^ (w15 / 8)
    let s1 := (sha256.rotr w2 17 ^^^ sha256.rotr w2 19) ^^^ (w2 / 1024)
    sha256.schedule n (((w16 + s0 + w7 + s1) % 4294967296) :: w)

/-- The working variables `a` to `h`. -/
structure sha256.Vars where
  a : Nat
  b : Nat
  c : Nat
  d : Nat
  e : Nat
  f : Nat
  g : Nat
  h : Nat

/-- The rounds of the compression function over the schedule and the constants. -/
def sha256.rounds : sha256.Vars → List Nat → List Nat → sha256.Vars
  | v, w :: ws, k :: ks =>
    let s1 := (sha256.rotr v.e 6 ^^^ sha256.rotr v.e 11) ^^^ sha256.rotr v.e 25
    let ch := (v.e &&& v.f) ^^^ ((4294967295 - v.e) &&& v.g)
    let t1 := (v.h + s1 + ch + k + w) % 4294967296
    let s0 := (sha256.rotr v.a 2 ^^^ sha256.rotr v.a 13) ^^^ sha256.rotr v.a 22
    let maj := ((v.a &&& v.b) ^^^ (v.a &&& v.c)) ^^^ (v.b &&& v.c)
    let t2 := (s0 + maj) % 4294967296
    sha256.rounds ⟨(t1 + t2) % 4294967296, v.a, v.b, v.c, (v.d + t1) % 4294967296, v.e, v.f, v.g⟩
      ws ks
  | v, _, _ => v

/-- The big-endian 32-bit words of a byte string whose length is a multiple of four;
`n` words are read. -/
def sha256.words : Nat → Bytes → List Nat
  | 0, _ => []
  | n + 1, bs => big.SetBytes (bs.take 4) :: sha256.words n (bs.drop 4)

/-- One block of 64 bytes added to the hash value `h`. -/
def sha256.block (h : List Nat) (chunk : Bytes) : List Nat :=
  let w := (sha256.schedule 48 (sha256.words 16 chunk).reverse).reverse
  let v := sha256.rounds
    ⟨h.getD 0 0, h.getD 1 0, h.getD 2 0, h.getD 3 0, h.getD 4 0, h.getD 5 0, h.getD 6 0, h.getD 7 0⟩
    w sha256.K
  List.zipWith (fun x y => (x + y) % 4294967296) h [v.a, v.b, v.c, v.d, v.e, v.f, v.g, v.h]

/-- The blocks of a padded message added to the hash value one after the other. -/
def sha256.blocks : Nat → List Nat → Bytes → List Nat
  | 0, h, _ => h
  | n + 1, h, bs => sha256.blocks n (sha256.block h (bs.take 64)) (bs.drop 64)

/-- The `n` low bytes of a number, big-endian. -/
def sha256.bigEndian : Nat → Nat → Bytes
  | 0, _ => []
  | n + 1, x => x / 256 ^ n % 256 :: sha256.bigEndian n x

/-- `sha256.Sum256`: the SHA-256 digest of the data, 32 bytes. -/
def sha256.Sum256 (data : Bytes) : Bytes :=
  let zeros := (119 - data.length % 64) % 64
  let padded := data ++ 128 :: List.replicate zeros 0
    ++ sha256.bigEndian 8 (data.length * 8 % 18446744073709551616)
  let h := sha256.blocks (padded.length / 64) sha256.init padded
  (h.map (sha256.bigEndian 4)).flatten

/-! ## `crypto/rsa`: `VerifyPKCS1v15` -/

/-- `crypto.Hash.Size`. -/
def CryptoHash.Size : CryptoHash → Nat
  | CryptoHash.MD5 => 16
  | CryptoHash.SHA1 => 20
  | CryptoHash.SHA224 => 28
  | CryptoHash.SHA256 => 32
  | CryptoHash.SHA384 => 48
  | CryptoHash.SHA512 => 64

/-- `hashPrefixes`: the DER of the DigestInfo before the digest. -/
def rsa.hashPrefixes : CryptoHash → Bytes
  | CryptoHash.MD5 =>
    [48, 32, 48, 12, 6, 8, 42, 134, 72, 134, 247, 13, 2, 5, 5,
      0, 4, 16]
  | CryptoHash.SHA1 =>
    [48, 33, 48, 9, 6, 5, 43, 14, 3, 2, 26, 5, 0, 4, 20]
  | CryptoHash.SHA224 =>
    [48, 45, 48, 13, 6, 9, 96, 134, 72, 1, 101, 3, 4, 2, 4,
      5, 0, 4, 28]
  | CryptoHash.SHA256 =>
    [48, 49, 48, 13, 6, 9, 96, 134, 72, 1, 101, 3, 4, 2, 1,
      5, 0, 4, 32]
  | CryptoHash.SHA384 =>
    [48, 65, 48, 13, 6, 9, 96, 134, 72, 1, 101, 3, 4, 2, 2,
      5, 0, 4, 48]
  | CryptoHash.SHA512 =>
    [48, 81, 48, 13, 6, 9, 96, 134, 72, 1, 101, 3, 4, 2, 3,
      5, 0, 4, 64]

/-- `rsa.ErrVerification`. -/
def rsa.ErrVerification : GoError := errors.New "crypto/rsa: verification error"

/-- Modular exponentiation by squaring: `b ^ e mod n`, for `e` of at most `fuel` binary digits. -/
def big.expFrom : Nat → Nat → Nat → Nat → Nat
  | 0, _, _, n => 1 % n
  | fuel + 1, b, e, n =>
    if e = 0 then 1 % n
    else
      let half := big.expFrom fuel (b * b % n) (e / 2) n
      if e % 2 = 1 then b * half % n else half

/-- The loop of the extended Euclidean algorithm on the remainders `r0`, `r1` with the
coefficients `t0`, `t1` of the number to invert: the coefficient of the greatest
common divisor when that is 1. -/
def big.modInverseFrom : Nat → Nat → Nat → Int → Int → Option Int
  | 0, _, _, _, _ => none
  | fuel + 1, r0, r1, t0, t1 =>
    if r1 = 0 then (if r0 = 1 then some t0 else none)
    else big.modInverseFrom fuel r1 (r0 % r1) t1 (t0 - (r0 / r1 : Nat) * t1)

/-- `big.Int.ModInverse(g, n)` for natural numbers, `n` not zero: the inverse of `g`
modulo `n` within `0 .. n - 1`, or nil when `g` and `n` are not relatively prime. (The
remainders fall, so that the loop ends within `n + 1` rounds.) -/
def big.ModInverse (g n : Nat) : Option Nat :=
  match big.modInverseFrom (n + 1) n (g % n) 0 1 with
  | some t => some (t % (n : Int)).toNat
  | none => none

/-- `big.Int.Exp(x, y, m)` for natural numbers `x` and `m`, `m` not zero: `x ^ y mod m`;
for a negative `y` the power of the inverse of `x` modulo `m`, and nil when there is no
inverse. -/
def big.Exp (x : Nat) (y : Int) (m : Nat) : Option Nat :=
  if y < 0 then
    match big.ModInverse x m with
    | some inverse => some (big.expFrom y.natAbs inverse y.natAbs m)
    | none => none
  else some (big.expFrom y.toNat (x % m) y.toNat m)

/-- The loop of `big.Int.BitLen`: the number of binary digits of `n`. -/
def big.bitLenFrom : Nat → Nat → Nat
  | 0, _ => 0
  | fuel + 1, n => if n = 0 then 0 else big.bitLenFrom fuel (n / 2) + 1

/-- `big.Int.BitLen` of a natural number (`n` has at most `n` binary digits). -/
def big.BitLen (n : Nat) : Nat :=
  big.bitLenFrom n n

/-- `rsa.VerifyPKCS1v15`.  The digest must have the size of the hash; the signature
must be as long as the modulus; the signature raised to `E` modulo `N` (`encrypt`, which
leaves zero when `big.Int.Exp` yields nil) must be `00 01 ff .. ff 00`, the DigestInfo
of the hash, the digest.  A nil key is dereferenced (`pub.Size()`): a panic. -/
def rsa.VerifyPKCS1v15 (pub : Option RsaPublicKey) (hash : CryptoHash) (hashed sig : Bytes) :
    Outcome (Option GoError) :=
  if hashed.length ≠ hash.Size then
    Outcome.ret (some (errors.New "crypto/rsa: input must be hashed message"))
  else
    match pub with
    | none => Outcome.panic
    | some key =>
      let tLen := (rsa.hashPrefixes hash).length + hash.Size
      let n := key.N.natAbs
      let k := (big.BitLen n + 7) / 8
      if k < tLen + 11 then Outcome.ret (some rsa.ErrVerification)
      else if k ≠ sig.length then Outcome.ret (some rsa.ErrVerification)
      else
        let m := (big.Exp (big.SetBytes sig) key.E n).getD 0
        let em := List.replicate (k - (big.Bytes m).length) 0 ++ big.Bytes m
        if em = 0 :: 1 :: List.replicate (k - tLen - 3) 255 ++ 0 :: rsa.hashPrefixes hash ++ hashed
        then Outcome.ret none
        else Outcome.ret (some rsa.ErrVerification)

/-! ## The library instance and the sample inputs -/

/-- The Go standard library as modelled above. -/
def goLib : Lib where
  Unmarshal := json.Unmarshal
  Decode := pem.Decode
  ParsePKCS1PublicKey := x509.ParsePKCS1PublicKey
  ParsePKIXPublicKey := x509.ParsePKIXPublicKey
  MarshalPKIXPublicKey := x509.MarshalPKIXPublicKey
  Sum256 := sha256.Sum256
  VerifyPKCS1v15 := rsa.VerifyPKCS1v15

/-- The bytes of an ASCII text. -/
def ascii (s : String) : Bytes :=
  s.data.map Char.toNat

/-- A 512-bit RSA public key (made with `openssl genrsa 512`). -/
def sampleKey : RsaPublicKey :=
  { N := 8042750131395289056730713089876875829803322151960312958501025312649557357789876944080689402292183501950625093011331175592975366044792283080919443534862651,
    E := 65537 }

/-- The PEM text of `sampleKey` in PKCS#1 form (`openssl rsa -RSAPublicKey_out`). -/
def pkcs1Pem : Bytes :=
  ascii ("-----BEGIN RSA PUBLIC KEY-----\n"
    ++ "MEgCQQCZkCTMS7N82P7nXscbACoby/vQpDSFy2/ICKxAsyDtTV6xQsmoOwpkE5E+\n"
    ++ "hYLxLmaS6ZpdMqovs+8gxjYF3Vk7AgMBAAE=\n"
    ++ "-----END RSA PUBLIC KEY-----\n")

/-- The PEM text of `sampleKey` in PKIX form (`openssl rsa -pubout`). -/
def pkixPem : Bytes :=
  ascii ("-----BEGIN PUBLIC KEY-----\n"
    ++ "MFwwDQYJKoZIhvcNAQEBBQADSwAwSAJBAJmQJMxLs3zY/udexxsAKhvL+9CkNIXL\n"
    ++ "b8gIrECzIO1NXrFCyag7CmQTkT6FgvEuZpLpml0yqi+z7yDGNgXdWTsCAwEAAQ==\n"
    ++ "-----END PUBLIC KEY-----\n")

/-- The DER of `sampleKey` in PKCS#1 form. -/
def pkcs1Der : Bytes :=
  [48, 72, 2, 65, 0, 153, 144, 36, 204, 75, 179, 124, 216, 254, 231, 94, 199, 27, 0, 42, 27,
   203, 251, 208, 164, 52, 133, 203, 111, 200, 8, 172, 64, 179, 32, 237, 77, 94, 177, 66, 201,
   168, 59, 10, 100, 19, 145, 62, 133, 130, 241, 46, 102, 146, 233, 154, 93, 50, 170, 47, 179,
   239, 32, 198, 54, 5, 221, 89, 59, 2, 3, 1, 0, 1]

/-- The DER of `sampleKey` in PKIX form. -/
def pkixDer : Bytes :=
  [48, 92, 48, 13, 6, 9, 42, 134, 72, 134, 247, 13, 1, 1, 1, 5, 0, 3, 75, 0] ++ pkcs1Der

/-- A key record whose `public` is the base64 of `pkcs1Pem`, the form that
`json.Unmarshal` decodes into a `[]byte`. -/
def pkcs1Record : KeyRef :=
  { addr := 1,
    val :=
      { KeyType := "rsa",
        Value := ascii ("\x7b\"public\":\""
          ++ "LS0tLS1CRUdJTiBSU0EgUFVCTElDIEtFWS0tLS0tCk1FZ0NRUUNaa0NUTVM3TjgyUDduWHNjYkFDb2J5"
          ++ "L3ZRcERTRnkyL0lDS3hBc3lEdFRWNnhRc21vT3dwa0U1RSsKaFlMeExtYVM2WnBkTXFvdnMrOGd4allG"
          ++ "M1ZrN0FnTUJBQUU9Ci0tLS0tRU5EIFJTQSBQVUJMSUMgS0VZLS0tLS0K"
          ++ "\"\x7d") } }

/-- A key record whose `public` is the base64 of `pkixPem`. -/
def pkixRecord : KeyRef :=
  { addr := 2,
    val :=
      { KeyType := "rsa",
        Value := ascii ("\x7b\"public\":\""
          ++ "LS0tLS1CRUdJTiBQVUJMSUMgS0VZLS0tLS0KTUZ3d0RRWUpLb1pJaHZjTkFRRUJCUUFEU3dBd1NBSkJB"
          ++ "Sm1RSk14THMzelkvdWRleHhzQUtodkwrOUNrTklYTApiOGdJckVDeklPMU5YckZDeWFnN0NtUVRrVDZG"
          ++ "Z3ZFdVpwTHBtbDB5cWkrejd5REdOZ1hkV1RzQ0F3RUFBUT09Ci0tLS0tRU5EIFBVQkxJQyBLRVktLS0t"
          ++ "LQo="
          ++ "\"\x7d") } }

/-- The source text of the JSON string whose value is `pkcs1Pem`: the PEM text with
each line end written as the escape of a newline. -/
def pkcs1PemJson : Bytes :=
  ascii ("-----BEGIN RSA PUBLIC KEY-----\\n"
    ++ "MEgCQQCZkCTMS7N82P7nXscbACoby/vQpDSFy2/ICKxAsyDtTV6xQsmoOwpkE5E+\\n"
    ++ "hYLxLmaS6ZpdMqovs+8gxjYF3Vk7AgMBAAE=\\n"
    ++ "-----END RSA PUBLIC KEY-----\\n")

/-- A key record in the wire format of the specification: the JSON object whose
`public` is the string `pkcs1Pem`, the PEM text itself. -/
def pemTextRecord : KeyRef :=
  { addr := 3,
    val :=
      { KeyType := "rsa",
        Value := ascii "\x7b\"public\": \"" ++ pkcs1PemJson ++ ascii "\"\x7d" } }

/-- A key record whose value is the empty JSON object. -/
def emptyObjectRecord : KeyRef :=
  { addr := 4, val := { KeyType := "rsa", Value := ascii "\x7b\x7d" } }

/-- A key record whose value is the JSON `null`. -/
def nullRecord : KeyRef :=
  { addr := 5, val := { KeyType := "rsa", Value := ascii "null" } }

/-- A key record whose value is not valid JSON. -/
def notJsonRecord : KeyRef :=
  { addr := 6, val := { KeyType := "rsa", Value := ascii "\x7b\"public\":" } }

/-- A key record whose `public` is the empty string: bytes without a PEM block. -/
def emptyPublicRecord : KeyRef :=
  { addr := 7, val := { KeyType := "rsa", Value := ascii "\x7b\"public\":\"\"\x7d" } }

/-- A PEM text whose block is not the DER of a key (its bytes are `ABC`). -/
def junkPem : Bytes :=
  ascii "-----BEGIN RSA PUBLIC KEY-----\nQUJD\n-----END RSA PUBLIC KEY-----\n"

/-- A key record whose `public` is the base64 of `junkPem`. -/
def junkRecord : KeyRef :=
  { addr := 8,
    val :=
      { KeyType := "rsa",
        Value := ascii ("\x7b\"public\":\""
          ++ "LS0tLS1CRUdJTiBSU0EgUFVCTElDIEtFWS0tLS0tClFVSkQKLS0tLS1FTkQgUlNBIFBVQkxJQyBLRVkt"
          ++ "LS0tLQo="
          ++ "\"\x7d") } }

/-- The PEM text of an Ed25519 public key (`openssl genpkey -algorithm ed25519`). -/
def ed25519Pem : Bytes :=
  ascii ("-----BEGIN PUBLIC KEY-----\n"
    ++ "MCowBQYDK2VwAyEAyY5o/dJyDvxXTZkY/maaa0glx8h33QGxgQlLQ/HdpMU=\n"
    ++ "-----END PUBLIC KEY-----\n")

/-- A key record whose `public` is the base64 of `ed25519Pem`. -/
def ed25519Record : KeyRef :=
  { addr := 9,
    val :=
      { KeyType := "rsa",
        Value := ascii ("\x7b\"public\":\""
          ++ "LS0tLS1CRUdJTiBQVUJMSUMgS0VZLS0tLS0KTUNvd0JRWURLMlZ3QXlFQXlZNW8vZEp5RHZ4WFRaa1kv"
          ++ "bWFhYTBnbHg4aDMzUUd4Z1FsTFEvSGRwTVU9Ci0tLS0tRU5EIFBVQkxJQyBLRVktLS0tLQo="
          ++ "\"\x7d") } }

/-- A key record whose `public` is not a string but the array of the bytes of
`pkcs1Pem`. -/
def arrayRecord : KeyRef :=
  { addr := 10,
    val :=
      { KeyType := "rsa",
        Value := ascii ("\x7b\"public\":[45,45,45,45,45,66,69,71,73,78,32,82,83,65,32,80,85,66,"
          ++ "76,73,67,32,75,69,89,45,45,45,45,45,10,77,69,103,67,81,81,67,90,107,67,84,77,83,"
          ++ "55,78,56,50,80,55,110,88,115,99,98,65,67,111,98,121,47,118,81,112,68,83,70,121,"
          ++ "50,47,73,67,75,120,65,115,121,68,116,84,86,54,120,81,115,109,111,79,119,112,107,"
          ++ "69,53,69,43,10,104,89,76,120,76,109,97,83,54,90,112,100,77,113,111,118,115,43,56,"
          ++ "103,120,106,89,70,51,86,107,55,65,103,77,66,65,65,69,61,10,45,45,45,45,45,69,78,"
          ++ "68,32,82,83,65,32,80,85,66,76,73,67,32,75,69,89,45,45,45,45,45,10]\x7d") } }

/-- The message `hello world`. -/
def sampleMsg : Bytes :=
  ascii "hello world"

/-- The RSASSA-PKCS1-v1_5 signature with SHA-256 of `sampleMsg` under the private key
of `sampleKey` (`openssl dgst -sha256 -sign`). -/
def sampleSig : Bytes :=
  [40, 131, 197, 105, 255, 176, 179, 88, 216, 127, 208, 174, 162, 48, 88, 26, 30, 127, 68, 55,
   6, 247, 248, 244, 197, 40, 4, 189, 242, 230, 31, 40, 52, 225, 156, 142, 199, 230, 87, 163,
   32, 18, 163, 252, 233, 81, 208, 220, 120, 122, 0, 57, 153, 162, 102, 135, 50, 179, 155, 82,
   140, 16, 105, 38]

/-- The sample signature with the lowest bit of its last byte flipped. -/
def flippedSig : Bytes :=
  sampleSig.take 63 ++ [39]

/-- A key record whose `public` is the base64 of the text `not a pem`: bytes without a
PEM block. -/
def notPemRecord : KeyRef :=
  { addr := 11, val := { KeyType := "rsa", Value := ascii "\x7b\"public\":\"bm90IGEgcGVt\"\x7d" } }

/-- A key record whose value is valid JSON but an array, not an object. -/
def topLevelArrayRecord : KeyRef :=
  { addr := 12, val := { KeyType := "rsa", Value := ascii "[1, 2]" } }

/-- A key record whose `public` is a number. -/
def numberPublicRecord : KeyRef :=
  { addr := 13, val := { KeyType := "rsa", Value := ascii "\x7b\"public\":5\x7d" } }

/-- A key record whose `public` is the array of the byte values 0, 7 and 255. -/
def byteArrayRecord : KeyRef :=
  { addr := 14, val := { KeyType := "rsa", Value := ascii "\x7b\"public\":[0,7,255]\x7d" } }

/-- The verifier in the Ready state that `UnmarshalKey` makes of a fresh verifier and
the PKCS#1 sample record. -/
def readyVerifier : rsaVerifier :=
  (NewRsaVerifier.UnmarshalKey goLib (some pkcs1Record)).1

/-- Whether a JSON value is an object or `null`: the two top-level values that
`json.Unmarshal` stores into a struct without a type error. -/
def JSONValue.isObjectOrNull : JSONValue → Bool
  | JSONValue.null => true
  | JSONValue.object _ => true
  | _ => false

/-- Whether no member of a JSON object names the field `PublicKey`. -/
def json.lacksPublicKey (members : List (Bytes × JSONValue)) : Bool :=
  members.all (fun m => !json.isPublicKeyField (json.unquote m.1))

/-- Whether an element of a JSON array is stored into a `uint8` without error: `null`,
or a number written as a text of decimal digits whose value is at most 255. -/
def JSONValue.isByteOrNull : JSONValue → Bool
  | JSONValue.null => true
  | JSONValue.number lit =>
    match lit, json.parseDigits 0 lit with
    | _ :: _, some n => decide (n ≤ 255)
    | _, _ => false
  | _ => false

/-- Whether a JSON value is rejected for the field `PublicKey []byte`: a boolean, a
number, an object, a string that is not valid base64, or an array with an element
that is not stored into a `uint8`. -/
def JSONValue.isRejectedPublicKey : JSONValue → Bool
  | JSONValue.null => false
  | JSONValue.bool _ => true
  | JSONValue.number _ => true
  | JSONValue.object _ => true
  | JSONValue.string raw => (base64.Decode (json.unquote raw)).isNone
  | JSONValue.array elems => elems.any (fun e => !e.isByteOrNull)

/-! ## The fuel of the library instance suffices -/

/-- The scanner in a string passes over at least the closing quote. -/
theorem json_lexString_length (s raw r : Bytes) (h : json.lexString s = some (raw, r)) :
    r.length < s.length := by
  induction s using json.lexString.induct generalizing raw r with
  | case1 => simp [json.lexString.eq_def] at h
  | case2 cs => rw [json.lexString.eq_def] at h; simp at h; simp [← h.2]
  | case3 => rw [json.lexString.eq_def] at h; simp at h
  | case4 h1 h2 h3 h4 cs2 hx s1 r1 hs _ ih =>
    rw [json.lexString.eq_def] at h
    simp [hx, hs] at h
    have := ih s1 r1 hs
    simp [← h.2]; omega
  | case5 h1 h2 h3 h4 cs2 hx hs _ ih => rw [json.lexString.eq_def] at h; simp [hx, hs] at h
  | case6 h1 h2 h3 h4 cs2 hx _ => rw [json.lexString.eq_def] at h; simp [hx] at h
  | case7 cs1 hcs _ =>
    rcases cs1 with _ | ⟨a, _ | ⟨b, _ | ⟨c, _ | ⟨d, t⟩⟩⟩⟩
    · rw [json.lexString.eq_def] at h; simp at h
    · rw [json.lexString.eq_def] at h; simp at h
    · rw [json.lexString.eq_def] at h; simp at h
    · rw [json.lexString.eq_def] at h; simp at h
    · exact absurd rfl (hcs a b c d t)
  | case8 e cs1 he1 he2 s1 r1 hs _ ih =>
    rw [json.lexString.eq_def] at h
    simp [he1, he2, hs] at h
    have := ih s1 r1 hs
    simp [← h.2]; omega
  | case9 e cs1 he1 he2 hs _ ih => rw [json.lexString.eq_def] at h; simp [he1, he2, hs] at h
  | case10 e cs1 he1 he2 _ => rw [json.lexString.eq_def] at h; simp [he1, he2] at h
  | case11 c cs h1 h2 h3 => rw [json.lexString.eq_def] at h; simp [h1, h2, h3] at h
  | case12 c cs h1 h2 h3 s1 r1 hs ih =>
    rw [json.lexString.eq_def] at h
    simp [h1, h2, h3, hs] at h
    have := ih s1 r1 hs
    simp [← h.2]; omega
  | case13 c cs h1 h2 h3 hs ih => rw [json.lexString.eq_def] at h; simp [h1, h2, h3, hs] at h

/-- What follows the digits is no longer than the text. -/
theorem json_takeDigits_length (s : Bytes) : (json.takeDigits s).2.length ≤ s.length := by
  induction s with
  | nil => simp [json.takeDigits]
  | cons c cs ih =>
    simp only [json.takeDigits]
    split
    · simp; omega
    · simp

/-- With a digit read, what follows the digits is shorter than the text. -/
theorem json_takeDigits_length_lt (s : Bytes) (h : (json.takeDigits s).1 ≠ []) :
    (json.takeDigits s).2.length < s.length := by
  cases s with
  | nil => simp [json.takeDigits] at h
  | cons c cs =>
    simp only [json.takeDigits] at h ⊢
    split
    · have := json_takeDigits_length cs
      simp; omega
    · rename_i hc; simp [hc] at h

/-- What follows the sign is no longer than the text. -/
theorem json_takeSign_length (s : Bytes) : (json.takeSign s).2.length ≤ s.length := by
  cases s with
  | nil => simp [json.takeSign]
  | cons c cs =>
    simp only [json.takeSign]
    split <;> simp

/-- What follows the minus sign is no longer than the text. -/
theorem json_takeMinus_length (s : Bytes) : (json.takeMinus s).2.length ≤ s.length := by
  cases s with
  | nil => simp [json.takeMinus]
  | cons c cs =>
    simp only [json.takeMinus]
    split <;> simp

/-- What follows an exponent is no longer than the text. -/
theorem json_lexExponent_length (lit s l r : Bytes)
    (h : json.lexExponent lit s = some (l, r)) : r.length ≤ s.length := by
  unfold json.lexExponent at h
  split at h
  · simp at h; simp [← h.2]
  · rename_i e r1
    split at h
    · simp only at h
      split at h
      · simp at h
      · simp only [Option.some.injEq, Prod.mk.injEq] at h
        rw [← h.2]
        have h1 := json_takeDigits_length (json.takeSign r1).2
        have h2 := json_takeSign_length r1
        simp only [List.length_cons]
        omega
    · simp at h; simp [← h.2]

/-- What follows a fraction and an exponent is no longer than the text. -/
theorem json_lexFraction_length (lit s l r : Bytes)
    (h : json.lexFraction lit s = some (l, r)) : r.length ≤ s.length := by
  unfold json.lexFraction at h
  split at h
  · simp at h; simp [← h.2]
  · rename_i d r1
    split at h
    · simp only at h
      split at h
      · simp at h
      · have h1 := json_lexExponent_length _ _ _ _ h
        have h2 := json_takeDigits_length r1
        simp only [List.length_cons]
        omega
    · exact json_lexExponent_length _ _ _ _ h

/-- The scanner on a number passes over at least one digit. -/
theorem json_lexNumber_length (s l r : Bytes) (h : json.lexNumber s = some (l, r)) :
    r.length < s.length := by
  unfold json.lexNumber at h
  simp only at h
  have hm := json_takeMinus_length s
  split at h
  · simp at h
  · rename_i d r1 heq
    rw [heq] at hm
    simp only [List.length_cons] at hm
    split at h
    · have := json_lexFraction_length _ _ _ _ h
      omega
    · split at h
      · have h1 := json_lexFraction_length _ _ _ _ h
        have h2 := json_takeDigits_length r1
        omega
      · simp at h

/-- What follows a literal is no longer than the text. -/
theorem json_dropLiteral_length (lit s r : Bytes) (h : json.dropLiteral lit s = some r) :
    r.length ≤ s.length := by
  induction lit generalizing s with
  | nil =>
    simp [json.dropLiteral] at h
    simp [h]
  | cons l ls ih =>
    cases s with
    | nil => simp [json.dropLiteral] at h
    | cons c cs =>
      simp only [json.dropLiteral] at h
      split at h
      · have := ih cs h
        simp; omega
      · simp at h

/-- The scanner does not run out of fuel: with more fuel than the text is long, the
tokens do not depend on the fuel. -/
theorem json_lex_fuel (f1 f2 : Nat) (data : Bytes) (h1 : data.length < f1)
    (h2 : data.length < f2) : json.lex f1 data = json.lex f2 data := by
  induction f1 generalizing f2 data with
  | zero => omega
  | succ g1 ih =>
    cases f2 with
    | zero => omega
    | succ g2 =>
      cases data with
      | nil => simp [json.lex]
      | cons c cs =>
        simp only [List.length_cons] at h1 h2
        have key : ∀ r : Bytes, r.length ≤ cs.length → json.lex g1 r = json.lex g2 r :=
          fun r hr => ih g2 r (by omega) (by omega)
        rw [json.lex.eq_3, json.lex.eq_3]
        have hcs := key cs (Nat.le_refl _)
        by_cases hsp : json.isSpace c = true
        · rw [if_pos hsp, if_pos hsp]; exact hcs
        rw [if_neg hsp, if_neg hsp]
        by_cases h123 : c = 123
        · rw [if_pos h123, if_pos h123]; beta_reduce; rw [hcs]
        rw [if_neg h123, if_neg h123]
        by_cases h125 : c = 125
        · rw [if_pos h125, if_pos h125]; beta_reduce; rw [hcs]
        rw [if_neg h125, if_neg h125]
        by_cases h91 : c = 91
        · rw [if_pos h91, if_pos h91]; beta_reduce; rw [hcs]
        rw [if_neg h91, if_neg h91]
        by_cases h93 : c = 93
        · rw [if_pos h93, if_pos h93]; beta_reduce; rw [hcs]
        rw [if_neg h93, if_neg h93]
        by_cases h58 : c = 58
        · rw [if_pos h58, if_pos h58]; beta_reduce; rw [hcs]
        rw [if_neg h58, if_neg h58]
        by_cases h44 : c = 44
        · rw [if_pos h44, if_pos h44]; beta_reduce; rw [hcs]
        rw [if_neg h44, if_neg h44]
        by_cases h34 : c = 34
        · rw [if_pos h34, if_pos h34]
          beta_reduce
          split
          · rename_i s r heq
            have := json_lexString_length _ _ _ heq
            rw [key r (by omega)]
          · rfl
        rw [if_neg h34, if_neg h34]
        by_cases hnum : c = 45 ∨ 48 ≤ c ∧ c ≤ 57
        · rw [if_pos hnum, if_pos hnum]
          beta_reduce
          split
          · rename_i s r heq
            have := json_lexNumber_length _ _ _ heq
            simp only [List.length_cons] at this
            rw [key r (by omega)]
          · rfl
        rw [if_neg hnum, if_neg hnum]
        by_cases h116 : c = 116
        · rw [if_pos h116, if_pos h116]
          beta_reduce
          split
          · rename_i r heq
            have := json_dropLiteral_length _ _ _ heq
            rw [key r (by omega)]
          · rfl
        rw [if_neg h116, if_neg h116]
        by_cases h102 : c = 102
        · rw [if_pos h102, if_pos h102]
          beta_reduce
          split
          · rename_i r heq
            have := json_dropLiteral_length _ _ _ heq
            rw [key r (by omega)]
          · rfl
        rw [if_neg h102, if_neg h102]
        by_cases h110 : c = 110
        · rw [if_pos h110, if_pos h110]
          beta_reduce
          split
          · rename_i r heq
            have := json_dropLiteral_length _ _ _ heq
            rw [key r (by omega)]
          · rfl
        rw [if_neg h110, if_neg h110]

/-- The tokens of a text are those that any larger amount of fuel gives. -/
theorem json_lex_fuel_suffices (fuel : Nat) (data : Bytes) (h : data.length < fuel) :
    json.lex fuel data = json.lex (data.length + 1) data :=
  json_lex_fuel fuel (data.length + 1) data h (Nat.lt_succ_self _)

/-- A text is at least as long as a text it starts with. -/
theorem bytes_HasPrefix_length (s t : Bytes) (h : bytes.HasPrefix s t = true) :
    t.length ≤ s.length := by
  induction s generalizing t with
  | nil => cases t <;> simp_all [bytes.HasPrefix]
  | cons c s ih =>
    cases t with
    | nil => simp
    | cons d t =>
      simp only [bytes.HasPrefix, Bool.and_eq_true] at h
      have := ih t h.2
      simp only [List.length_cons]
      omega

/-- An instance of `sep` found at index `i` lies within the text. -/
theorem bytes_Index_length (s sep : Bytes) (i : Nat) (h : bytes.Index s sep = some i) :
    i + sep.length ≤ s.length := by
  induction s generalizing i with
  | nil =>
    simp only [bytes.Index] at h
    split at h
    · rename_i hs; simp at h; simp [hs, ← h]
    · simp at h
  | cons c s ih =>
    simp only [bytes.Index] at h
    split at h
    · rename_i hp
      have := bytes_HasPrefix_length _ _ hp
      simp only [Option.some.injEq] at h
      omega
    · split at h
      · rename_i j hj
        have := ih j hj
        simp only [Option.some.injEq] at h
        simp only [List.length_cons]
        omega
      · simp at h

/-- What follows the first line is no longer than the text. -/
theorem pem_getLine_length (data : Bytes) : (pem.getLine data).2.length ≤ data.length := by
  unfold pem.getLine
  split <;> simp

/-- What follows the first line of a text that is not empty is shorter than the text. -/
theorem pem_getLine_length_lt (data : Bytes) (h : data ≠ []) :
    (pem.getLine data).2.length < data.length := by
  have hpos : 0 < data.length := List.length_pos.mpr h
  unfold pem.getLine
  split
  · simp; exact hpos
  · simp; omega

/-- The header loop does not run out of fuel: with more fuel than the text is long,
its result does not depend on the fuel. -/
theorem pem_skipHeaders_fuel (f1 f2 : Nat) (seen : Bool) (rest : Bytes)
    (h1 : rest.length < f1) (h2 : rest.length < f2) :
    pem.skipHeaders f1 seen rest = pem.skipHeaders f2 seen rest := by
  induction f1 generalizing f2 seen rest with
  | zero => omega
  | succ g1 ih =>
    cases f2 with
    | zero => omega
    | succ g2 =>
      simp only [pem.skipHeaders]
      split
      · rfl
      · rename_i hne
        have := pem_getLine_length_lt rest hne
        split
        · exact ih g2 true _ (by omega) (by omega)
        · rfl

/-- The header loop yields an end of the text it was given. -/
theorem pem_skipHeaders_length (fuel : Nat) (seen b : Bool) (rest r : Bytes)
    (h : pem.skipHeaders fuel seen rest = some (b, r)) : r.length ≤ rest.length := by
  induction fuel generalizing seen rest with
  | zero => simp [pem.skipHeaders] at h
  | succ g ih =>
    simp only [pem.skipHeaders] at h
    split at h
    · simp at h
    · split at h
      · have h3 := ih _ _ h
        have h4 := pem_getLine_length rest
        omega
      · simp only [Option.some.injEq, Prod.mk.injEq] at h
        rw [← h.2]

/-- What a round of the loop of `Decode` starts from at least eleven bytes into its
input, past a begin marker. -/
theorem pem_decodeRound_length (data rest r : Bytes)
    (h : pem.decodeRound data rest = pem.Round.again r) : r.length < rest.length := by
  unfold pem.decodeRound at h
  simp only at h
  split at h
  · simp at h
  · rename_i rest1 hstart
    have hr1 : rest1.length < rest.length := by
      split at hstart
      · rename_i hp
        have := bytes_HasPrefix_length _ _ hp
        simp only [Option.some.injEq] at hstart
        rw [← hstart]
        simp [pem.pemStart] at this ⊢
        omega
      · split at hstart
        · rename_i i hi
          have := bytes_Index_length _ _ _ hi
          simp only [Option.some.injEq] at hstart
          rw [← hstart]
          simp [pem.pemStart] at this ⊢
          omega
        · simp at hstart
    have hr2 := pem_getLine_length rest1
    split at h
    · simp only [pem.Round.again.injEq] at h
      rw [← h]
      omega
    · split at h
      · simp at h
      · rename_i hasHeaders rest3 hsk
        have hr3 := pem_skipHeaders_length _ _ _ _ _ hsk
        have hlt : rest3.length < rest.length := by omega
        split at h
        · simp only [pem.Round.again.injEq] at h
          rw [← h]; exact hlt
        · split at h
          · simp only [pem.Round.again.injEq] at h
            rw [← h]; exact hlt
          · split at h
            · simp only [pem.Round.again.injEq] at h
              rw [← h]; exact hlt
            · split at h
              · simp only [pem.Round.again.injEq] at h
                rw [← h]; exact hlt
              · split at h
                · simp only [pem.Round.again.injEq] at h
                  rw [← h]; exact hlt
                · simp at h

/-- The loop of `Decode` does not run out of fuel: with more fuel than the remaining
input is long, its result does not depend on the fuel. -/
theorem pem_decodeFrom_fuel (f1 f2 : Nat) (data rest : Bytes)
    (h1 : rest.length < f1) (h2 : rest.length < f2) :
    pem.decodeFrom f1 data rest = pem.decodeFrom f2 data rest := by
  induction f1 generalizing f2 rest with
  | zero => omega
  | succ g1 ih =>
    cases f2 with
    | zero => omega
    | succ g2 =>
      simp only [pem.decodeFrom]
      split
      · rfl
      · rename_i rest1 hround
        have := pem_decodeRound_length _ _ _ hround
        exact ih g2 rest1 (by omega) (by omega)

/-- A base-128 value takes at least one byte. -/
theorem asn1_parseBase128From_length (shifted ret : Nat) (bytes : Bytes) (v : Nat)
    (rest : Bytes) (h : asn1.parseBase128From shifted ret bytes = Except.ok (v, rest)) :
    rest.length < bytes.length := by
  induction bytes generalizing shifted ret with
  | nil => simp [asn1.parseBase128From] at h
  | cons b bs ih =>
    simp only [asn1.parseBase128From] at h
    split at h
    · simp at h
    · split at h
      · simp at h
      · split at h
        · split at h
          · simp at h
          · simp only [Except.ok.injEq, Prod.mk.injEq] at h
            rw [← h.2]
            simp
        · have := ih _ _ h
          simp only [List.length_cons]
          omega

/-- The loop of `parseObjectIdentifier` does not run out of fuel. -/
theorem asn1_parseArcs_fuel (f1 f2 : Nat) (bytes : Bytes) (h1 : bytes.length < f1)
    (h2 : bytes.length < f2) : asn1.parseArcs f1 bytes = asn1.parseArcs f2 bytes := by
  induction f1 generalizing f2 bytes with
  | zero => omega
  | succ g1 ih =>
    cases f2 with
    | zero => omega
    | succ g2 =>
      simp only [asn1.parseArcs]
      split
      · rfl
      · split
        · rfl
        · rename_i v rest hv
          have := asn1_parseBase128From_length _ _ _ _ _ hv
          rw [ih g2 rest (by omega) (by omega)]

/-- The loop of `big.Int.Bytes` does not run out of fuel. -/
theorem big_bytesFrom_fuel (f1 f2 n : Nat) (acc : Bytes) (h1 : n ≤ f1) (h2 : n ≤ f2) :
    big.bytesFrom f1 n acc = big.bytesFrom f2 n acc := by
  induction f1 generalizing f2 n acc with
  | zero =>
    have hn : n = 0 := by omega
    subst hn
    cases f2 <;> simp [big.bytesFrom]
  | succ g1 ih =>
    cases f2 with
    | zero =>
      have hn : n = 0 := by omega
      subst hn
      simp [big.bytesFrom]
    | succ g2 =>
      simp only [big.bytesFrom]
      split
      · rfl
      · exact ih g2 _ _ (by omega) (by omega)

/-- The loop of `big.Int.BitLen` does not run out of fuel. -/
theorem big_bitLenFrom_fuel (f1 f2 n : Nat) (h1 : n ≤ f1) (h2 : n ≤ f2) :
    big.bitLenFrom f1 n = big.bitLenFrom f2 n := by
  induction f1 generalizing f2 n with
  | zero =>
    have hn : n = 0 := by omega
    subst hn
    cases f2 <;> simp [big.bitLenFrom]
  | succ g1 ih =>
    cases f2 with
    | zero =>
      have hn : n = 0 := by omega
      subst hn
      simp [big.bitLenFrom]
    | succ g2 =>
      simp only [big.bitLenFrom]
      split
      · rfl
      · rw [ih g2 _ (by omega) (by omega)]

/-- The loop of the modular exponentiation does not run out of fuel. -/
theorem big_expFrom_fuel (f1 f2 b e n : Nat) (h1 : e ≤ f1) (h2 : e ≤ f2) :
    big.expFrom f1 b e n = big.expFrom f2 b e n := by
  induction f1 generalizing f2 b e with
  | zero =>
    have he : e = 0 := by omega
    subst he
    cases f2 <;> simp [big.expFrom]
  | succ g1 ih =>
    cases f2 with
    | zero =>
      have he : e = 0 := by omega
      subst he
      simp [big.expFrom]
    | succ g2 =>
      simp only [big.expFrom]
      split
      · rfl
      · rw [ih g2 _ _ (by omega) (by omega)]

/-- The loop of the modular inverse does not run out of fuel. -/
theorem big_modInverseFrom_fuel (f1 f2 r0 r1 : Nat) (t0 t1 : Int) (h1 : r1 < f1)
    (h2 : r1 < f2) :
    big.modInverseFrom f1 r0 r1 t0 t1 = big.modInverseFrom f2 r0 r1 t0 t1 := by
  induction f1 generalizing f2 r0 r1 t0 t1 with
  | zero => omega
  | succ g1 ih =>
    cases f2 with
    | zero => omega
    | succ g2 =>
      simp only [big.modInverseFrom]
      split
      · rfl
      · rename_i hr
        have : r0 % r1 < r1 := Nat.mod_lt _ (Nat.pos_of_ne_zero hr)
        exact ih g2 _ _ _ _ (by omega) (by omega)


/-! ## How `parseKey` and `UnmarshalKey` end -/

/-- The four ways `parseKey` ends: a panic, a key without error, or one of its two
errors without key. -/
theorem parseKey_cases (lib : Lib) (data : Bytes) :
    parseKey lib data = Outcome.panic
    ∨ (∃ k, parseKey lib data = Outcome.ret (some k, none))
    ∨ parseKey lib data = Outcome.ret (none, some UnsupportedKeyType)
    ∨ parseKey lib data = Outcome.ret (none, some MalformedKey) := by
  cases hd : (lib.Decode data).1 with
  | none => exact Or.inl (by simp [parseKey, hd])
  | some block =>
    cases h1 : lib.ParsePKCS1PublicKey block.Bytes with
    | ok k => exact Or.inr (Or.inl ⟨k, by simp [parseKey, hd, h1]⟩)
    | error e =>
      cases h2 : lib.ParsePKIXPublicKey block.Bytes with
      | error e1 =>
        exact Or.inr (Or.inr (Or.inr (by simp [parseKey, hd, h1, h2, MalformedKey])))
      | ok key =>
        cases key with
        | rsa k => exact Or.inr (Or.inl ⟨k, by simp [parseKey, hd, h1, h2]⟩)
        | other a raw =>
          exact Or.inr (Or.inr (Or.inl (by simp [parseKey, hd, h1, h2, UnsupportedKeyType])))

/-- When the JSON decoder reports an error, `UnmarshalKey` returns InvalidRecord and
only the raw key bytes may have changed. -/
theorem unmarshalKey_of_json_error (lib : Lib) (p : rsaVerifier) (R : KeyRef) (e : GoError)
    (h : (lib.Unmarshal R.val.Value p.PublicKey).2 = some e) :
    p.UnmarshalKey lib (some R)
      = ({ p with PublicKey := (lib.Unmarshal R.val.Value p.PublicKey).1 },
          Outcome.ret (some InvalidRecord)) := by
  simp only [rsaVerifier.UnmarshalKey, h]
  rfl

/-- When the JSON decoder reports no error, `UnmarshalKey` ends as `parseKey` on the
decoded raw key bytes ends. -/
theorem unmarshalKey_of_json_ok (lib : Lib) (p : rsaVerifier) (R : KeyRef)
    (h : (lib.Unmarshal R.val.Value p.PublicKey).2 = none) :
    p.UnmarshalKey lib (some R)
      = match parseKey lib (lib.Unmarshal R.val.Value p.PublicKey).1 with
        | Outcome.panic =>
          ({ p with PublicKey := (lib.Unmarshal R.val.Value p.PublicKey).1 }, Outcome.panic)
        | Outcome.ret (rsaKey, some e) =>
          ({ p with PublicKey := (lib.Unmarshal R.val.Value p.PublicKey).1, rsaKey := rsaKey },
            Outcome.ret (some e))
        | Outcome.ret (rsaKey, none) =>
          ({ PublicKey := (lib.Unmarshal R.val.Value p.PublicKey).1, rsaKey := rsaKey,
             key := some R }, Outcome.ret none) := by
  simp only [rsaVerifier.UnmarshalKey, h]
  cases parseKey lib (lib.Unmarshal R.val.Value p.PublicKey).1 with
  | panic => rfl
  | ret r =>
    obtain ⟨rsaKey, err⟩ := r
    cases err <;> rfl

/-- A call of `UnmarshalKey` that returns no error: the JSON decoder reported none,
`parseKey` on the decoded bytes returned a key, and the three fields are the decoded
bytes, that key and the record. -/
theorem unmarshalKey_success (lib : Lib) (p : rsaVerifier) (R : KeyRef)
    (h : (p.UnmarshalKey lib (some R)).2 = Outcome.ret none) :
    (lib.Unmarshal R.val.Value p.PublicKey).2 = none
    ∧ ∃ k, parseKey lib (lib.Unmarshal R.val.Value p.PublicKey).1 = Outcome.ret (some k, none)
      ∧ (p.UnmarshalKey lib (some R)).1
          = { PublicKey := (lib.Unmarshal R.val.Value p.PublicKey).1, rsaKey := some k,
              key := some R } := by
  cases hj : (lib.Unmarshal R.val.Value p.PublicKey).2 with
  | some e =>
    rw [unmarshalKey_of_json_error lib p R e hj] at h
    simp [InvalidRecord] at h
  | none =>
    refine ⟨rfl, ?_⟩
    rw [unmarshalKey_of_json_ok lib p R hj] at h ⊢
    rcases parseKey_cases lib (lib.Unmarshal R.val.Value p.PublicKey).1 with hp | ⟨k, hp⟩ | hp | hp
    · rw [hp] at h; simp at h
    · exact ⟨k, hp, by rw [hp]⟩
    · rw [hp] at h; simp [UnsupportedKeyType] at h
    · rw [hp] at h; simp [MalformedKey] at h

/-! ## The library instance: digests, and what the JSON decoder stores and rejects -/

/-- Members none of which names `PublicKey` leave the raw key bytes and the saved error
as they are. -/
theorem storeMembers_of_lacksPublicKey (cur : Bytes) (saved : Option GoError)
    (members : List (Bytes × JSONValue)) (h : json.lacksPublicKey members = true) :
    json.storeMembers cur saved members = (cur, saved) := by
  induction members with
  | nil => rfl
  | cons m ms ih =>
    obtain ⟨k, v⟩ := m
    simp only [json.lacksPublicKey, List.all_cons, Bool.and_eq_true, Bool.not_eq_true',
      Bool.not_eq_eq_eq_not, Bool.not_true] at h
    have ih1 := ih (by simpa [json.lacksPublicKey] using h.2)
    simp [json.storeMembers, h.1, ih1]

/-- Four bytes are written for every word of the hash value. -/
theorem sha256_bigEndian_length (n x : Nat) : (sha256.bigEndian n x).length = n := by
  induction n with
  | zero => rfl
  | succ n ih => simp [sha256.bigEndian, ih]

/-- A block keeps the hash value at eight words. -/
theorem sha256_block_length (h : List Nat) (chunk : Bytes) (hh : h.length = 8) :
    (sha256.block h chunk).length = 8 := by
  simp [sha256.block, hh]

/-- The blocks keep the hash value at eight words. -/
theorem sha256_blocks_length (n : Nat) (h : List Nat) (bs : Bytes) (hh : h.length = 8) :
    (sha256.blocks n h bs).length = 8 := by
  induction n generalizing h bs with
  | zero => exact hh
  | succ n ih => exact ih _ _ (sha256_block_length h _ hh)

/-- The bytes of a list of words, four for each. -/
theorem sha256_flatten_length (l : List Nat) :
    ((l.map (sha256.bigEndian 4)).flatten).length = 4 * l.length := by
  induction l with
  | nil => rfl
  | cons x l ih =>
    simp only [List.map_cons, List.flatten_cons, List.length_append, List.length_cons, ih,
      sha256_bigEndian_length]
    omega

/-- A SHA-256 digest has 32 bytes. -/
theorem sha256_Sum256_length (data : Bytes) : (sha256.Sum256 data).length = 32 := by
  unfold sha256.Sum256
  simp only [sha256_flatten_length]
  rw [sha256_blocks_length _ sha256.init _ rfl]

/-- An element is stored into a `uint8` with an error exactly when it is neither `null`
nor a byte value, whatever the byte held before. -/
theorem storeUint8_error (old : Nat) (e : JSONValue) :
    (json.storeUint8 old e).2 = !e.isByteOrNull := by
  cases e with
  | number lit =>
    cases lit with
    | nil => simp [json.storeUint8, JSONValue.isByteOrNull]
    | cons c cs =>
      cases h : json.parseDigits 0 (c :: cs) with
      | none => simp [json.storeUint8, JSONValue.isByteOrNull, h]
      | some n =>
        by_cases hn : n ≤ 255 <;> simp [json.storeUint8, JSONValue.isByteOrNull, h, hn]
  | _ => simp [json.storeUint8, JSONValue.isByteOrNull]

/-- An array is stored into the `[]byte` with an error exactly when one of its elements
is. -/
theorem storeArray_error (cur : Bytes) (elems : List JSONValue) :
    (json.storeArray cur elems).2 = elems.any (fun e => !e.isByteOrNull) := by
  induction elems generalizing cur with
  | nil => rfl
  | cons e es ih => simp [json.storeArray, storeUint8_error, ih]

/-- A value is stored into `PublicKey` with an error exactly when it is a rejected
value, whatever the field held before. -/
theorem storePublicKey_error (cur : Bytes) (v : JSONValue) :
    (json.storePublicKey cur v).2.isSome = v.isRejectedPublicKey := by
  cases v with
  | string raw =>
    cases h : base64.Decode (json.unquote raw) <;>
      simp [json.storePublicKey, JSONValue.isRejectedPublicKey, h]
  | array elems =>
    simp only [json.storePublicKey, JSONValue.isRejectedPublicKey, storeArray_error]
    cases elems.any (fun e => !e.isByteOrNull) <;> rfl
  | _ => simp [json.storePublicKey, JSONValue.isRejectedPublicKey]

/-- The members of an object are stored with an error exactly when an error was saved
before or a member that names `PublicKey` holds a rejected value. -/
theorem storeMembers_error (cur : Bytes) (saved : Option GoError)
    (members : List (Bytes × JSONValue)) :
    (json.storeMembers cur saved members).2.isSome
      = (saved.isSome || members.any
          (fun m => json.isPublicKeyField (json.unquote m.1) && m.2.isRejectedPublicKey)) := by
  induction members generalizing cur saved with
  | nil => simp [json.storeMembers]
  | cons m ms ih =>
    obtain ⟨k, v⟩ := m
    by_cases hk : json.isPublicKeyField (json.unquote k) = true
    · cases hs : saved with
      | some e => simp [json.storeMembers, hk, ih]
      | none =>
        simp only [json.storeMembers, hk, if_true, ih, Option.isSome_none, Bool.false_eq_true,
          if_false, List.any_cons, Bool.true_and, Bool.false_or, storePublicKey_error]
    · simp [json.storeMembers, hk, ih]

/-- An array of byte values is stored into the `[]byte` as those values, without
error, whatever the slice held before. -/
theorem storeArray_of_bytes (cur : Bytes) (lits : List Bytes) (bytes : Bytes)
    (h1 : ∀ lit ∈ lits, lit ≠ [])
    (h2 : lits.map (json.parseDigits 0) = bytes.map some)
    (h3 : ∀ b ∈ bytes, b ≤ 255) :
    json.storeArray cur (lits.map JSONValue.number) = (bytes, false) := by
  induction lits generalizing cur bytes with
  | nil =>
    cases bytes with
    | nil => rfl
    | cons b bs => simp at h2
  | cons lit ls ih =>
    cases bytes with
    | nil => simp at h2
    | cons b bs =>
      simp only [List.map_cons, List.cons.injEq] at h2
      have hb : b ≤ 255 := h3 b (List.mem_cons_self _ _)
      have hl : lit ≠ [] := h1 lit (List.mem_cons_self _ _)
      have ih1 := ih cur.tail bs (fun l hl1 => h1 l (List.mem_cons_of_mem _ hl1)) h2.2
        (fun c hc => h3 c (List.mem_cons_of_mem _ hc))
      cases lit with
      | nil => exact absurd rfl hl
      | cons c cs =>
        simp [json.storeArray, json.storeUint8, h2.1, hb, ih1]

/-- `UnmarshalKey` returns InvalidRecord only when the JSON decoder reported an error:
the errors of `parseKey` are other errors. -/
theorem unmarshalKey_InvalidRecord_only_of_json_error (lib : Lib) (p : rsaVerifier) (R : KeyRef)
    (h : (p.UnmarshalKey lib (some R)).2 = Outcome.ret (some InvalidRecord)) :
    (lib.Unmarshal R.val.Value p.PublicKey).2 ≠ none := by
  intro hj
  rw [unmarshalKey_of_json_ok lib p R hj] at h
  rcases parseKey_cases lib (lib.Unmarshal R.val.Value p.PublicKey).1 with hp | ⟨k, hp⟩ | hp | hp
  · rw [hp] at h; simp at h
  · rw [hp] at h; simp at h
  · rw [hp] at h; simp [UnsupportedKeyType, InvalidRecord, errors.New] at h
  · rw [hp] at h; simp [MalformedKey, InvalidRecord, errors.New] at h

/-- An object with a member that names `PublicKey` and holds a rejected value is
decoded with an error. -/
theorem goLib_unmarshal_rejected_member (data cur : Bytes) (members : List (Bytes × JSONValue))
    (key : Bytes) (v : JSONValue) (hp : json.parse data = some (JSONValue.object members))
    (hm : (key, v) ∈ members) (hk : json.isPublicKeyField (json.unquote key) = true)
    (hv : v.isRejectedPublicKey = true) :
    (goLib.Unmarshal data cur).2.isSome = true := by
  have h := storeMembers_error cur none members
  simp only [goLib, json.Unmarshal, hp]
  rw [h]
  simp only [Option.isSome_none, Bool.false_or, List.any_eq_true, Bool.and_eq_true]
  exact ⟨(key, v), hm, hk, hv⟩

/-- What the JSON decoder of the library instance rejects. -/
theorem goLib_unmarshal_error_iff (data cur : Bytes) :
    (goLib.Unmarshal data cur).2 ≠ none
      ↔ (json.parse data = none
        ∨ (∃ v, json.parse data = some v ∧ v.isObjectOrNull = false)
        ∨ ∃ members key v, json.parse data = some (JSONValue.object members)
            ∧ (key, v) ∈ members ∧ json.isPublicKeyField (json.unquote key) = true
            ∧ v.isRejectedPublicKey = true) := by
  cases hp : json.parse data with
  | none => simp [goLib, json.Unmarshal, hp]
  | some w =>
    cases w with
    | object members =>
      have h := storeMembers_error cur none members
      simp only [goLib, json.Unmarshal, hp, ne_eq, ← Option.isSome_iff_ne_none, h,
        Option.isSome_none, Bool.false_or, List.any_eq_true, Bool.and_eq_true]
      constructor
      · rintro ⟨⟨k, v⟩, hm, hk, hv⟩
        exact Or.inr (Or.inr ⟨members, k, v, rfl, hm, hk, hv⟩)
      · rintro (h1 | ⟨v, h1, h2⟩ | ⟨ms, k, v, h1, hm, hk, hv⟩)
        · cases h1
        · simp only [Option.some.injEq] at h1
          subst h1
          simp [JSONValue.isObjectOrNull] at h2
        · simp only [Option.some.injEq, JSONValue.object.injEq] at h1
          subst h1
          exact ⟨(k, v), hm, hk, hv⟩
    | null =>
      simp [goLib, json.Unmarshal, hp, JSONValue.isObjectOrNull]
    | bool b => simp [goLib, json.Unmarshal, hp, JSONValue.isObjectOrNull]
    | number l => simp [goLib, json.Unmarshal, hp, JSONValue.isObjectOrNull]
    | string l => simp [goLib, json.Unmarshal, hp, JSONValue.isObjectOrNull]
    | array l => simp [goLib, json.Unmarshal, hp, JSONValue.isObjectOrNull]

/-- The value `null` and an object without a `public` member are decoded without error
and leave the field as it was. -/
theorem goLib_unmarshal_without_public (cur : Bytes) (data : Bytes)
    (h : json.parse data = some JSONValue.null
      ∨ ∃ members, json.parse data = some (JSONValue.object members)
          ∧ json.lacksPublicKey members = true) :
    goLib.Unmarshal data cur = (cur, none) := by
  rcases h with h | ⟨members, h, hl⟩
  · simp [goLib, json.Unmarshal, h]
  · simp [goLib, json.Unmarshal, h, storeMembers_of_lacksPublicKey cur none members hl]

/-- A text that is not valid JSON, and a top-level value that is neither an object nor
`null`, are rejected and leave the verifier as it was. -/
theorem goLib_unmarshalKey_not_object (p : rsaVerifier) (R : KeyRef)
    (h : json.parse R.val.Value = none
      ∨ ∃ v, json.parse R.val.Value = some v ∧ v.isObjectOrNull = false) :
    p.UnmarshalKey goLib (some R) = (p, Outcome.ret (some InvalidRecord)) := by
  rcases h with h | ⟨v, h, hv⟩
  · have hj : goLib.Unmarshal R.val.Value p.PublicKey = (p.PublicKey, some json.syntaxError) := by
      simp [goLib, json.Unmarshal, h]
    rw [unmarshalKey_of_json_error goLib p R json.syntaxError (by rw [hj]), hj]
  · have hj : goLib.Unmarshal R.val.Value p.PublicKey = (p.PublicKey, some json.typeError) := by
      cases v <;> simp_all [goLib, json.Unmarshal, JSONValue.isObjectOrNull]
    rw [unmarshalKey_of_json_error goLib p R json.typeError (by rw [hj]), hj]

/-- An object whose one member is `public` with a boolean, a number, an object or a
string that is not valid base64 is rejected and leaves the verifier as it was. -/
theorem goLib_unmarshalKey_rejected_single (p : rsaVerifier) (R : KeyRef) (key : Bytes)
    (v : JSONValue) (hp : json.parse R.val.Value = some (JSONValue.object [(key, v)]))
    (hk : json.isPublicKeyField (json.unquote key) = true)
    (hv : (∃ b, v = JSONValue.bool b) ∨ (∃ lit, v = JSONValue.number lit)
      ∨ (∃ ms, v = JSONValue.object ms)
      ∨ (∃ raw, v = JSONValue.string raw ∧ base64.Decode (json.unquote raw) = none)) :
    p.UnmarshalKey goLib (some R) = (p, Outcome.ret (some InvalidRecord)) := by
  have hj : ∃ e, goLib.Unmarshal R.val.Value p.PublicKey = (p.PublicKey, some e) := by
    rcases hv with ⟨b, rfl⟩ | ⟨lit, rfl⟩ | ⟨ms, rfl⟩ | ⟨raw, rfl, hb⟩
    · exact ⟨json.typeError, by
        simp [goLib, json.Unmarshal, hp, json.storeMembers, hk, json.storePublicKey]⟩
    · exact ⟨json.typeError, by
        simp [goLib, json.Unmarshal, hp, json.storeMembers, hk, json.storePublicKey]⟩
    · exact ⟨json.typeError, by
        simp [goLib, json.Unmarshal, hp, json.storeMembers, hk, json.storePublicKey]⟩
    · exact ⟨base64.corruptInputError, by
        simp [goLib, json.Unmarshal, hp, json.storeMembers, hk, json.storePublicKey, hb]⟩
  obtain ⟨e, he⟩ := hj
  rw [unmarshalKey_of_json_error goLib p R e (by rw [he]), he]

/-- The PKCS#1 sample record is deserialised into a fresh verifier without error: the
raw key bytes are the PEM text, the parsed key is the sample key. -/
theorem goLib_unmarshal_pkcs1Record :
    NewRsaVerifier.UnmarshalKey goLib (some pkcs1Record)
      = (⟨pkcs1Pem, some sampleKey, some pkcs1Record⟩, Outcome.ret none) := by
  decide!

/-- The PKIX sample record is deserialised into a fresh verifier without error, to the
same parsed key. -/
theorem goLib_unmarshal_pkixRecord :
    NewRsaVerifier.UnmarshalKey goLib (some pkixRecord)
      = (⟨pkixPem, some sampleKey, some pkixRecord⟩, Outcome.ret none) := by
  decide!

/-- The two PEM texts decode to the two DER encodings of the sample key. -/
theorem goLib_decode_sample_pems :
    (goLib.Decode pkcs1Pem).1 = some ⟨ascii "RSA PUBLIC KEY", pkcs1Der⟩
    ∧ (goLib.Decode pkixPem).1 = some ⟨ascii "PUBLIC KEY", pkixDer⟩ := by
  decide!

/-- The PKCS#1 parser reads the PKCS#1 DER and rejects the PKIX DER; the PKIX parser
reads the PKIX DER and rejects the PKCS#1 DER; the PKIX encoder writes the PKIX DER. -/
theorem goLib_sample_ders :
    goLib.ParsePKCS1PublicKey pkcs1Der = Except.ok sampleKey
    ∧ goLib.ParsePKCS1PublicKey pkixDer = Except.error (errors.New
        "x509: failed to parse public key (use ParsePKIXPublicKey instead for this key format)")
    ∧ goLib.ParsePKIXPublicKey pkixDer = Except.ok (PublicKeyAny.rsa sampleKey)
    ∧ goLib.ParsePKIXPublicKey pkcs1Der = Except.error (errors.New
        "x509: failed to parse public key (use ParsePKCS1PublicKey instead for this key format)")
    ∧ goLib.MarshalPKIXPublicKey (some sampleKey) = Outcome.ret (Except.ok pkixDer) := by
  decide!

/-! ## The claims -/

/-- C1. Encoding independence of `Public()`: for an RSA key `k`, a DER `d1` that the
PKCS#1 parser decodes to `k` and a DER `d2` that the PKCS#1 parser rejects and the PKIX
parser decodes to `k`, two fresh verifiers whose `UnmarshalKey` succeeded on records
whose raw key bytes are PEM texts of `d1` and of `d2` hold the same parsed key `k` and
return the same string from `Public()`, the PKIX encoding `r` of `k`, whenever that
encoding succeeds; and under the library instance it succeeds for every key. -/
theorem C1_public_encoding_independent (lib : Lib) (k : RsaPublicKey) (d1 d2 r : Bytes)
    (R1 R2 : KeyRef) (b1 b2 : Block)
    (hk1 : lib.ParsePKCS1PublicKey d1 = Except.ok k)
    (hk2 : ∀ k2, lib.ParsePKCS1PublicKey d2 ≠ Except.ok k2)
    (hk3 : lib.ParsePKIXPublicKey d2 = Except.ok (PublicKeyAny.rsa k))
    (hu1 : (NewRsaVerifier.UnmarshalKey lib (some R1)).2 = Outcome.ret none)
    (hu2 : (NewRsaVerifier.UnmarshalKey lib (some R2)).2 = Outcome.ret none)
    (hp1 : (lib.Decode (NewRsaVerifier.UnmarshalKey lib (some R1)).1.PublicKey).1 = some b1)
    (hb1 : b1.Bytes = d1)
    (hp2 : (lib.Decode (NewRsaVerifier.UnmarshalKey lib (some R2)).1.PublicKey).1 = some b2)
    (hb2 : b2.Bytes = d2)
    (hm : lib.MarshalPKIXPublicKey (some k) = Outcome.ret (Except.ok r)) :
    (NewRsaVerifier.UnmarshalKey lib (some R1)).1.rsaKey = some k
    ∧ (NewRsaVerifier.UnmarshalKey lib (some R2)).1.rsaKey = some k
    ∧ (NewRsaVerifier.UnmarshalKey lib (some R1)).1.Public lib = Outcome.ret r
    ∧ (NewRsaVerifier.UnmarshalKey lib (some R2)).1.Public lib = Outcome.ret r
    ∧ ∃ r0, goLib.MarshalPKIXPublicKey (some k) = Outcome.ret (Except.ok r0) := by
  obtain ⟨_, k1, hpk1, hs1⟩ := unmarshalKey_success lib NewRsaVerifier R1 hu1
  obtain ⟨_, k2, hpk2, hs2⟩ := unmarshalKey_success lib NewRsaVerifier R2 hu2
  rw [hs1] at hp1
  rw [hs2] at hp2
  simp only at hp1 hp2
  have e1 : k1 = k := by
    simp [parseKey, hp1, hb1, hk1] at hpk1
    exact hpk1.symm
  have e2 : k2 = k := by
    cases h : lib.ParsePKCS1PublicKey d2 with
    | ok k3 => exact absurd h (hk2 k3)
    | error e =>
      simp [parseKey, hp2, hb2, h, hk3] at hpk2
      exact hpk2.symm
  subst e1
  subst e2
  rw [hs1, hs2]
  simp [rsaVerifier.Public, hm, goLib, x509.MarshalPKIXPublicKey]

/-- C1, at the sample key: the verifiers made from its PKCS#1 record and from its PKIX
record both return the PKIX DER of the key from `Public()`. -/
theorem C1_public_encoding_independent_witness :
    (NewRsaVerifier.UnmarshalKey goLib (some pkcs1Record)).1.rsaKey = some sampleKey
    ∧ (NewRsaVerifier.UnmarshalKey goLib (some pkixRecord)).1.rsaKey = some sampleKey
    ∧ (NewRsaVerifier.UnmarshalKey goLib (some pkcs1Record)).1.Public goLib = Outcome.ret pkixDer
    ∧ (NewRsaVerifier.UnmarshalKey goLib (some pkixRecord)).1.Public goLib
        = Outcome.ret pkixDer
    ∧ ∃ r0, goLib.MarshalPKIXPublicKey (some sampleKey) = Outcome.ret (Except.ok r0) :=
  C1_public_encoding_independent goLib sampleKey pkcs1Der pkixDer pkixDer pkcs1Record pkixRecord
    ⟨ascii "RSA PUBLIC KEY", pkcs1Der⟩ ⟨ascii "PUBLIC KEY", pkixDer⟩
    goLib_sample_ders.1
    (fun k2 h => by rw [goLib_sample_ders.2.1] at h; cases h)
    goLib_sample_ders.2.2.1
    (by rw [goLib_unmarshal_pkcs1Record])
    (by rw [goLib_unmarshal_pkixRecord])
    (by rw [goLib_unmarshal_pkcs1Record]; exact goLib_decode_sample_pems.1)
    rfl
    (by rw [goLib_unmarshal_pkixRecord]; exact goLib_decode_sample_pems.2)
    rfl
    goLib_sample_ders.2.2.2.2

/-- C2. `Verify` is the reference check: on a verifier whose `UnmarshalKey` succeeded,
`Verify(msg, sig)` ends exactly as the RSASSA-PKCS1-v1_5 check of the library ends for
the stored parsed key, the hash identifier SHA-256, the SHA-256 digest of the whole of
`msg`, and `sig`: no error if and only if the check accepts, and on rejection the error
of the library and no other. -/
theorem C2_verify_is_reference_check (lib : Lib) (p : rsaVerifier) (R : KeyRef)
    (msg sig : Bytes)
    (hu : (p.UnmarshalKey lib (some R)).2 = Outcome.ret none) :
    ∃ k, (p.UnmarshalKey lib (some R)).1.rsaKey = some k
      ∧ (p.UnmarshalKey lib (some R)).1.Verify lib msg sig
          = lib.VerifyPKCS1v15 (some k) CryptoHash.SHA256 (lib.Sum256 msg) sig
      ∧ ((p.UnmarshalKey lib (some R)).1.Verify lib msg sig = Outcome.ret none
          ↔ lib.VerifyPKCS1v15 (some k) CryptoHash.SHA256 (lib.Sum256 msg) sig
              = Outcome.ret none)
      ∧ ∀ e, (p.UnmarshalKey lib (some R)).1.Verify lib msg sig = Outcome.ret (some e)
          ↔ lib.VerifyPKCS1v15 (some k) CryptoHash.SHA256 (lib.Sum256 msg) sig
              = Outcome.ret (some e) := by
  obtain ⟨_, k, _, hs⟩ := unmarshalKey_success lib p R hu
  refine ⟨k, by rw [hs], ?_⟩
  have hv : (p.UnmarshalKey lib (some R)).1.Verify lib msg sig
      = lib.VerifyPKCS1v15 (some k) CryptoHash.SHA256 (lib.Sum256 msg) sig := by
    rw [hs]
    rfl
  exact ⟨hv, by rw [hv], fun e => by rw [hv]⟩

/-- C2, at the sample key: the verifier made from the PKCS#1 record checks signatures as
the library does under the sample key; it accepts the signature of the sample message
and rejects it for another message with the error of the library. -/
theorem C2_verify_is_reference_check_witness :
    (∃ k, (NewRsaVerifier.UnmarshalKey goLib (some pkcs1Record)).1.rsaKey = some k
      ∧ (NewRsaVerifier.UnmarshalKey goLib (some pkcs1Record)).1.Verify goLib sampleMsg sampleSig
          = goLib.VerifyPKCS1v15 (some k) CryptoHash.SHA256 (goLib.Sum256 sampleMsg) sampleSig
      ∧ ((NewRsaVerifier.UnmarshalKey goLib (some pkcs1Record)).1.Verify goLib sampleMsg sampleSig
            = Outcome.ret none
          ↔ goLib.VerifyPKCS1v15 (some k) CryptoHash.SHA256 (goLib.Sum256 sampleMsg) sampleSig
              = Outcome.ret none)
      ∧ ∀ e, (NewRsaVerifier.UnmarshalKey goLib (some pkcs1Record)).1.Verify goLib sampleMsg
              sampleSig = Outcome.ret (some e)
          ↔ goLib.VerifyPKCS1v15 (some k) CryptoHash.SHA256 (goLib.Sum256 sampleMsg) sampleSig
              = Outcome.ret (some e))
    ∧ (NewRsaVerifier.UnmarshalKey goLib (some pkcs1Record)).1.Verify goLib sampleMsg sampleSig
        = Outcome.ret none
    ∧ (NewRsaVerifier.UnmarshalKey goLib (some pkcs1Record)).1.Verify goLib
          (ascii "hello worlds") sampleSig
        = Outcome.ret (some rsa.ErrVerification) :=
  ⟨C2_verify_is_reference_check goLib NewRsaVerifier pkcs1Record sampleMsg sampleSig
      (by rw [goLib_unmarshal_pkcs1Record]),
    by decide!, by decide!⟩

/-- C3. Round trip: if `UnmarshalKey(R)` returns no error, the next `MarshalKey()`
returns `R` itself: the same reference, with algorithm type and value unchanged. -/
theorem C3_unmarshal_marshal_round_trip (lib : Lib) (p : rsaVerifier) (R : KeyRef)
    (hu : (p.UnmarshalKey lib (some R)).2 = Outcome.ret none) :
    (p.UnmarshalKey lib (some R)).1.MarshalKey = some R
    ∧ ∃ R1, (p.UnmarshalKey lib (some R)).1.MarshalKey = some R1 ∧ R1.addr = R.addr
        ∧ R1.val.KeyType = R.val.KeyType ∧ R1.val.Value = R.val.Value := by
  obtain ⟨_, k, _, hs⟩ := unmarshalKey_success lib p R hu
  rw [hs]
  exact ⟨rfl, R, rfl, rfl, rfl, rfl⟩

/-- C3, at the PKIX sample record. -/
theorem C3_unmarshal_marshal_round_trip_witness :
    (NewRsaVerifier.UnmarshalKey goLib (some pkixRecord)).1.MarshalKey = some pkixRecord
    ∧ ∃ R1, (NewRsaVerifier.UnmarshalKey goLib (some pkixRecord)).1.MarshalKey = some R1
        ∧ R1.addr = pkixRecord.addr ∧ R1.val.KeyType = pkixRecord.val.KeyType
        ∧ R1.val.Value = pkixRecord.val.Value :=
  C3_unmarshal_marshal_round_trip goLib NewRsaVerifier pkixRecord
    (by rw [goLib_unmarshal_pkixRecord])

/-- C4. Key-blob parsing follows the ordered fallback: when PEM decoding of the input
yields a block with DER bytes `d`, `parseKey` returns (1) the PKCS#1 parse of `d` when
it succeeds, whatever the PKIX parser does; (2) otherwise the PKIX parse of `d` when it
succeeds with an RSA key; (3) otherwise UnsupportedKeyType when the PKIX parse succeeds
with a key that is not RSA; (4) otherwise MalformedKey; and `UnmarshalKey`, when the
JSON decoder has stored that input as raw key bytes, returns the error of `parseKey`
unchanged. -/
theorem C4_parseKey_ordered_fallback (lib : Lib) (data : Bytes) (block : Block)
    (hd : (lib.Decode data).1 = some block) :
    (∀ k, lib.ParsePKCS1PublicKey block.Bytes = Except.ok k →
        parseKey lib data = Outcome.ret (some k, none))
    ∧ (∀ e k, lib.ParsePKCS1PublicKey block.Bytes = Except.error e →
        lib.ParsePKIXPublicKey block.Bytes = Except.ok (PublicKeyAny.rsa k) →
        parseKey lib data = Outcome.ret (some k, none))
    ∧ (∀ e a raw, lib.ParsePKCS1PublicKey block.Bytes = Except.error e →
        lib.ParsePKIXPublicKey block.Bytes = Except.ok (PublicKeyAny.other a raw) →
        parseKey lib data = Outcome.ret (none, some UnsupportedKeyType))
    ∧ (∀ e e1, lib.ParsePKCS1PublicKey block.Bytes = Except.error e →
        lib.ParsePKIXPublicKey block.Bytes = Except.error e1 →
        parseKey lib data = Outcome.ret (none, some MalformedKey))
    ∧ (∀ (p : rsaVerifier) (R : KeyRef) (err : GoError),
        lib.Unmarshal R.val.Value p.PublicKey = (data, none) →
        (parseKey lib data = Outcome.ret (none, some err)
          ↔ (p.UnmarshalKey lib (some R)).2 = Outcome.ret (some err))) := by
  refine ⟨?_, ?_, ?_, ?_, ?_⟩
  · intro k h1
    simp [parseKey, hd, h1]
  · intro e k h1 h2
    simp [parseKey, hd, h1, h2]
  · intro e a raw h1 h2
    simp [parseKey, hd, h1, h2, UnsupportedKeyType]
  · intro e e1 h1 h2
    simp [parseKey, hd, h1, h2, MalformedKey]
  · intro p R err hj
    have hj1 : (lib.Unmarshal R.val.Value p.PublicKey).1 = data := by rw [hj]
    have hj2 : (lib.Unmarshal R.val.Value p.PublicKey).2 = none := by rw [hj]
    rw [unmarshalKey_of_json_ok lib p R hj2, hj1]
    rcases parseKey_cases lib data with hp | ⟨k, hp⟩ | hp | hp
    · rw [hp]; simp
    · rw [hp]; simp
    · rw [hp]; simp
    · rw [hp]; simp

/-- C4, at the sample inputs: the PKCS#1 text takes case (1), the PKIX text case (2), the
Ed25519 text case (3), the text whose block is no key case (4); `UnmarshalKey` on the
last two records returns the errors of `parseKey`. -/
theorem C4_parseKey_ordered_fallback_witness :
    parseKey goLib pkcs1Pem = Outcome.ret (some sampleKey, none)
    ∧ parseKey goLib pkixPem = Outcome.ret (some sampleKey, none)
    ∧ parseKey goLib ed25519Pem = Outcome.ret (none, some UnsupportedKeyType)
    ∧ parseKey goLib junkPem = Outcome.ret (none, some MalformedKey)
    ∧ (NewRsaVerifier.UnmarshalKey goLib (some ed25519Record)).2
        = Outcome.ret (some UnsupportedKeyType)
    ∧ (NewRsaVerifier.UnmarshalKey goLib (some junkRecord)).2
        = Outcome.ret (some MalformedKey) :=
  ⟨(C4_parseKey_ordered_fallback goLib pkcs1Pem ⟨ascii "RSA PUBLIC KEY", pkcs1Der⟩
      goLib_decode_sample_pems.1).1 sampleKey goLib_sample_ders.1,
    (C4_parseKey_ordered_fallback goLib pkixPem ⟨ascii "PUBLIC KEY", pkixDer⟩
      goLib_decode_sample_pems.2).2.1 _ sampleKey goLib_sample_ders.2.1 goLib_sample_ders.2.2.1,
    by decide!, by decide!, by decide!, by decide!⟩

/-- Without a PEM block `parseKey` dereferences the nil block: a panic, whatever the
library. -/
theorem parseKey_panics_without_block (lib : Lib) (data : Bytes)
    (h : (lib.Decode data).1 = none) : parseKey lib data = Outcome.panic := by
  simp [parseKey, h]

/-- C5. Input without a PEM block: the empty string and the text `not a pem` hold no
PEM block; on them `parseKey` does not return MalformedKey but dereferences the nil
block and panics, and so does `UnmarshalKey` on a record whose `public` decodes to
such bytes (the JSON decoder reports no error and stores the bytes). -/
theorem C5_no_pem_block_panics :
    (goLib.Decode []).1 = none
    ∧ parseKey goLib [] = Outcome.panic
    ∧ (goLib.Decode (ascii "not a pem")).1 = none
    ∧ parseKey goLib (ascii "not a pem") = Outcome.panic
    ∧ goLib.Unmarshal emptyPublicRecord.val.Value [] = ([], none)
    ∧ NewRsaVerifier.UnmarshalKey goLib (some emptyPublicRecord)
        = (NewRsaVerifier, Outcome.panic)
    ∧ goLib.Unmarshal notPemRecord.val.Value [] = (ascii "not a pem", none)
    ∧ NewRsaVerifier.UnmarshalKey goLib (some notPemRecord)
        = (⟨ascii "not a pem", none, none⟩, Outcome.panic) := by
  decide!

/-- C6 as stated fails: a record whose `public` is not a string but an array of byte
values is deserialised without error; and for the values `null` and the empty object
the JSON decoder reports no error, so that `UnmarshalKey` goes on to key-blob parsing
and does not return InvalidRecord. -/
theorem C6_counterexample :
    NewRsaVerifier.UnmarshalKey goLib (some arrayRecord)
      = (⟨pkcs1Pem, some sampleKey, some arrayRecord⟩, Outcome.ret none)
    ∧ goLib.Unmarshal emptyObjectRecord.val.Value [] = ([], none)
    ∧ goLib.Unmarshal nullRecord.val.Value [] = ([], none)
    ∧ (NewRsaVerifier.UnmarshalKey goLib (some emptyObjectRecord)).2
        ≠ Outcome.ret (some InvalidRecord)
    ∧ (NewRsaVerifier.UnmarshalKey goLib (some nullRecord)).2
        ≠ Outcome.ret (some InvalidRecord) := by
  decide!

/-- C6, amended. `UnmarshalKey` returns InvalidRecord exactly when the JSON decoder
rejects the value of the record, and then without key-blob parsing: for every library,
if `json.Unmarshal` reports an error then `UnmarshalKey` returns InvalidRecord and the
parsed key and the stored record are as before, and it returns InvalidRecord in no
other case.  The library instance rejects exactly: a value that is not valid JSON; a
valid JSON whose top-level value is neither an object nor `null` (the verifier is then
as before); and an object with a member named `public` whose value is a boolean, a
number, an object, a string that is not valid base64, or an array with an element
that is neither `null` nor a byte value (when that member is the only one and no
array, the verifier is as before).  A value that the decoder accepts is not rejected,
although it is no object with a string `public`: `UnmarshalKey` then ends as key-blob
parsing of the decoded raw key bytes ends; `null` and an object without a `public`
member are accepted and leave the raw key bytes as they were; an object whose one
member is a `public` that is an array of byte values is accepted and stored as those
bytes. -/
theorem C6_rejected_json_is_InvalidRecord :
    (∀ (lib : Lib) (p : rsaVerifier) (R : KeyRef) (e : GoError),
        (lib.Unmarshal R.val.Value p.PublicKey).2 = some e →
        (p.UnmarshalKey lib (some R)).2 = Outcome.ret (some InvalidRecord)
        ∧ (p.UnmarshalKey lib (some R)).1.rsaKey = p.rsaKey
        ∧ (p.UnmarshalKey lib (some R)).1.key = p.key)
    ∧ (∀ (p : rsaVerifier) (R : KeyRef), json.parse R.val.Value = none →
        p.UnmarshalKey goLib (some R) = (p, Outcome.ret (some InvalidRecord)))
    ∧ (∀ (p : rsaVerifier) (R : KeyRef) (v : JSONValue), json.parse R.val.Value = some v →
        v.isObjectOrNull = false →
        p.UnmarshalKey goLib (some R) = (p, Outcome.ret (some InvalidRecord)))
    ∧ (∀ (lib : Lib) (p : rsaVerifier) (R : KeyRef),
        (lib.Unmarshal R.val.Value p.PublicKey).2 = none →
        (p.UnmarshalKey lib (some R)).2
          = match parseKey lib (lib.Unmarshal R.val.Value p.PublicKey).1 with
            | Outcome.panic => Outcome.panic
            | Outcome.ret r => Outcome.ret r.2)
    ∧ (∀ (cur : Bytes) (R : KeyRef),
        (json.parse R.val.Value = some JSONValue.null
          ∨ ∃ members, json.parse R.val.Value = some (JSONValue.object members)
              ∧ json.lacksPublicKey members = true) →
        goLib.Unmarshal R.val.Value cur = (cur, none))
    ∧ (∀ (lib : Lib) (p : rsaVerifier) (R : KeyRef),
        (p.UnmarshalKey lib (some R)).2 = Outcome.ret (some InvalidRecord) →
        (lib.Unmarshal R.val.Value p.PublicKey).2 ≠ none)
    ∧ (∀ (p : rsaVerifier) (R : KeyRef) (members : List (Bytes × JSONValue)) (key : Bytes)
        (v : JSONValue),
        json.parse R.val.Value = some (JSONValue.object members) →
        (key, v) ∈ members →
        json.isPublicKeyField (json.unquote key) = true →
        ((∃ b, v = JSONValue.bool b) ∨ (∃ lit, v = JSONValue.number lit)
          ∨ (∃ ms, v = JSONValue.object ms)
          ∨ (∃ raw, v = JSONValue.string raw ∧ base64.Decode (json.unquote raw) = none)
          ∨ (∃ elems e, v = JSONValue.array elems ∧ e ∈ elems ∧ e.isByteOrNull = false)) →
        (p.UnmarshalKey goLib (some R)).2 = Outcome.ret (some InvalidRecord)
        ∧ (p.UnmarshalKey goLib (some R)).1.rsaKey = p.rsaKey
        ∧ (p.UnmarshalKey goLib (some R)).1.key = p.key)
    ∧ (∀ (p : rsaVerifier) (R : KeyRef) (key : Bytes) (v : JSONValue),
        json.parse R.val.Value = some (JSONValue.object [(key, v)]) →
        json.isPublicKeyField (json.unquote key) = true →
        ((∃ b, v = JSONValue.bool b) ∨ (∃ lit, v = JSONValue.number lit)
          ∨ (∃ ms, v = JSONValue.object ms)
          ∨ (∃ raw, v = JSONValue.string raw ∧ base64.Decode (json.unquote raw) = none)) →
        p.UnmarshalKey goLib (some R) = (p, Outcome.ret (some InvalidRecord)))
    ∧ (∀ (p : rsaVerifier) (R : KeyRef),
        (p.UnmarshalKey goLib (some R)).2 = Outcome.ret (some InvalidRecord)
          ↔ (json.parse R.val.Value = none
            ∨ (∃ v, json.parse R.val.Value = some v ∧ v.isObjectOrNull = false)
            ∨ ∃ members key v, json.parse R.val.Value = some (JSONValue.object members)
                ∧ (key, v) ∈ members ∧ json.isPublicKeyField (json.unquote key) = true
                ∧ v.isRejectedPublicKey = true))
    ∧ (∀ (cur : Bytes) (R : KeyRef) (key : Bytes) (lits : List Bytes) (bytes : Bytes),
        json.parse R.val.Value
          = some (JSONValue.object [(key, JSONValue.array (lits.map JSONValue.number))]) →
        json.isPublicKeyField (json.unquote key) = true →
        (∀ lit ∈ lits, lit ≠ []) →
        lits.map (json.parseDigits 0) = bytes.map some →
        (∀ b ∈ bytes, b ≤ 255) →
        goLib.Unmarshal R.val.Value cur = (bytes, none)) := by
  refine ⟨?_, ?_, ?_, ?_, ?_, ?_, ?_, ?_, ?_, ?_⟩
  · intro lib p R e h
    rw [unmarshalKey_of_json_error lib p R e h]
    exact ⟨rfl, rfl, rfl⟩
  · intro p R h
    exact goLib_unmarshalKey_not_object p R (Or.inl h)
  · intro p R v h hv
    exact goLib_unmarshalKey_not_object p R (Or.inr ⟨v, h, hv⟩)
  · intro lib p R h
    rw [unmarshalKey_of_json_ok lib p R h]
    cases parseKey lib (lib.Unmarshal R.val.Value p.PublicKey).1 with
    | panic => rfl
    | ret r =>
      obtain ⟨rsaKey, err⟩ := r
      cases err <;> rfl
  · intro cur R h
    exact goLib_unmarshal_without_public cur R.val.Value h
  · intro lib p R h
    exact unmarshalKey_InvalidRecord_only_of_json_error lib p R h
  · intro p R members key v hp hm hk hv
    have hr : v.isRejectedPublicKey = true := by
      rcases hv with ⟨b, rfl⟩ | ⟨lit, rfl⟩ | ⟨ms, rfl⟩ | ⟨raw, rfl, hb⟩ | ⟨elems, e, rfl, he, hn⟩
      · rfl
      · rfl
      · rfl
      · simp [JSONValue.isRejectedPublicKey, hb]
      · simp only [JSONValue.isRejectedPublicKey, List.any_eq_true, Bool.not_eq_true']
        exact ⟨e, he, hn⟩
    have hs := goLib_unmarshal_rejected_member R.val.Value p.PublicKey members key v hp hm hk hr
    obtain ⟨e, he⟩ := Option.isSome_iff_exists.mp hs
    rw [unmarshalKey_of_json_error goLib p R e he]
    exact ⟨rfl, rfl, rfl⟩
  · intro p R key v hp hk hv
    exact goLib_unmarshalKey_rejected_single p R key v hp hk hv
  · intro p R
    rw [← goLib_unmarshal_error_iff R.val.Value p.PublicKey]
    constructor
    · exact unmarshalKey_InvalidRecord_only_of_json_error goLib p R
    · intro h
      obtain ⟨e, he⟩ := Option.ne_none_iff_exists'.mp h
      rw [unmarshalKey_of_json_error goLib p R e he]
  · intro cur R key lits bytes hp hk h1 h2 h3
    simp [goLib, json.Unmarshal, hp, json.storeMembers, hk, json.storePublicKey,
      storeArray_of_bytes cur lits bytes h1 h2 h3]

/-- C6, amended, at sample records: a value that is not valid JSON, a top-level array
and an object whose `public` is a number give InvalidRecord on a fresh verifier, which
stays as it was; the empty object is accepted and leaves the raw key bytes as they
were; the array of the byte values 0, 7 and 255 is accepted and stored as those
bytes. -/
theorem C6_rejected_json_is_InvalidRecord_witness :
    json.parse notJsonRecord.val.Value = none
    ∧ NewRsaVerifier.UnmarshalKey goLib (some notJsonRecord)
        = (NewRsaVerifier, Outcome.ret (some InvalidRecord))
    ∧ NewRsaVerifier.UnmarshalKey goLib (some topLevelArrayRecord)
        = (NewRsaVerifier, Outcome.ret (some InvalidRecord))
    ∧ goLib.Unmarshal emptyObjectRecord.val.Value pkcs1Pem = (pkcs1Pem, none)
    ∧ NewRsaVerifier.UnmarshalKey goLib (some numberPublicRecord)
        = (NewRsaVerifier, Outcome.ret (some InvalidRecord))
    ∧ goLib.Unmarshal byteArrayRecord.val.Value pkcs1Pem = ([0, 7, 255], none) :=
  ⟨Option.isNone_iff_eq_none.mp (by decide!),
    C6_rejected_json_is_InvalidRecord.2.1 NewRsaVerifier notJsonRecord
      (Option.isNone_iff_eq_none.mp (by decide!)),
    C6_rejected_json_is_InvalidRecord.2.2.1 NewRsaVerifier topLevelArrayRecord
      (JSONValue.array [JSONValue.number [49], JSONValue.number [50]]) rfl rfl,
    C6_rejected_json_is_InvalidRecord.2.2.2.2.1 pkcs1Pem emptyObjectRecord
      (Or.inr ⟨[], rfl, rfl⟩),
    C6_rejected_json_is_InvalidRecord.2.2.2.2.2.2.2.1 NewRsaVerifier numberPublicRecord
      (ascii "public") (JSONValue.number [53]) rfl rfl (Or.inr (Or.inl ⟨[53], rfl⟩)),
    C6_rejected_json_is_InvalidRecord.2.2.2.2.2.2.2.2.2 pkcs1Pem byteArrayRecord
      (ascii "public") [[48], [55], [50, 53, 53]] [0, 7, 255] rfl rfl (by decide) rfl
      (by decide)⟩

/-- C7 as stated fails: on a fresh verifier `Verify` and `Public` do not yield a
NotInitialized failure; each passes the absent parsed key to the library, which
dereferences it, and the call panics. -/
theorem C7_counterexample :
    NewRsaVerifier.rsaKey = none
    ∧ NewRsaVerifier.Verify goLib sampleMsg sampleSig = Outcome.panic
    ∧ NewRsaVerifier.Public goLib = Outcome.panic := by
  decide!

/-- C7, amended. On a verifier whose parsed key is absent, as `NewRsaVerifier` returns
it and as it stays until `UnmarshalKey` succeeds, `Verify` and `Public` make no check of
their own and yield no NotInitialized failure: `Verify(msg, sig)` passes the absent key,
the hash identifier SHA-256 and the digest of `msg` to the RSASSA-PKCS1-v1_5 check of
the library and ends as that call ends; `Public()` passes the absent key to the PKIX
encoder and ends as that call ends, falling back to the raw key bytes on an error.
Under the library instance both calls dereference the absent key and panic. -/
theorem C7_absent_key_is_passed_to_library (lib : Lib) (p : rsaVerifier) (msg sig : Bytes)
    (h : p.rsaKey = none) :
    p.Verify lib msg sig
      = lib.VerifyPKCS1v15 none CryptoHash.SHA256 (lib.Sum256 msg) sig
    ∧ p.Public lib
        = (match lib.MarshalPKIXPublicKey none with
          | Outcome.panic => Outcome.panic
          | Outcome.ret (Except.error _) => Outcome.ret p.PublicKey
          | Outcome.ret (Except.ok r) => Outcome.ret r)
    ∧ p.Verify goLib msg sig = Outcome.panic
    ∧ p.Public goLib = Outcome.panic
    ∧ (∀ R, (p.UnmarshalKey lib (some R)).2 ≠ Outcome.ret none →
        (p.UnmarshalKey lib (some R)).1.rsaKey = none) := by
  refine ⟨?_, ?_, ?_, ?_, ?_⟩
  · simp [rsaVerifier.Verify, h]
  · simp [rsaVerifier.Public, h]
  · simp [rsaVerifier.Verify, h, goLib, rsa.VerifyPKCS1v15, sha256_Sum256_length,
      CryptoHash.Size]
  · simp [rsaVerifier.Public, h, goLib, x509.MarshalPKIXPublicKey]
  · intro R hne
    cases hj : (lib.Unmarshal R.val.Value p.PublicKey).2 with
    | some e =>
      rw [unmarshalKey_of_json_error lib p R e hj]
      exact h
    | none =>
      rw [unmarshalKey_of_json_ok lib p R hj] at hne ⊢
      rcases parseKey_cases lib (lib.Unmarshal R.val.Value p.PublicKey).1
        with hp | ⟨k, hp⟩ | hp | hp
      · rw [hp]; exact h
      · rw [hp] at hne; simp at hne
      · rw [hp]
      · rw [hp]

/-- C7, amended, at the fresh verifier. -/
theorem C7_absent_key_is_passed_to_library_witness :
    NewRsaVerifier.Verify goLib sampleMsg sampleSig
      = goLib.VerifyPKCS1v15 none CryptoHash.SHA256 (goLib.Sum256 sampleMsg) sampleSig
    ∧ NewRsaVerifier.Public goLib
        = (match goLib.MarshalPKIXPublicKey none with
          | Outcome.panic => Outcome.panic
          | Outcome.ret (Except.error _) => Outcome.ret NewRsaVerifier.PublicKey
          | Outcome.ret (Except.ok r) => Outcome.ret r)
    ∧ NewRsaVerifier.Verify goLib sampleMsg sampleSig = Outcome.panic
    ∧ NewRsaVerifier.Public goLib = Outcome.panic
    ∧ (∀ R, (NewRsaVerifier.UnmarshalKey goLib (some R)).2 ≠ Outcome.ret none →
        (NewRsaVerifier.UnmarshalKey goLib (some R)).1.rsaKey = none) :=
  C7_absent_key_is_passed_to_library goLib NewRsaVerifier sampleMsg sampleSig rfl

/-- C8. The `public` field does not carry the PEM text itself: for the record whose
value is the JSON object with `public` the string `pkcs1Pem` (a PEM text whose DER the
PKCS#1 parser decodes to the sample key), the JSON decoder base64-decodes the string
into the `[]byte` field and fails, and `UnmarshalKey` on a fresh verifier returns
InvalidRecord and stores nothing; the record that is accepted carries the base64 of
the PEM text. -/
theorem C8_pem_text_record_is_rejected :
    json.unquote pkcs1PemJson = pkcs1Pem
    ∧ (goLib.Decode pkcs1Pem).1 = some ⟨ascii "RSA PUBLIC KEY", pkcs1Der⟩
    ∧ goLib.ParsePKCS1PublicKey pkcs1Der = Except.ok sampleKey
    ∧ parseKey goLib pkcs1Pem = Outcome.ret (some sampleKey, none)
    ∧ base64.Decode pkcs1Pem = none
    ∧ goLib.Unmarshal pemTextRecord.val.Value [] = ([], some base64.corruptInputError)
    ∧ NewRsaVerifier.UnmarshalKey goLib (some pemTextRecord)
        = (NewRsaVerifier, Outcome.ret (some InvalidRecord))
    ∧ NewRsaVerifier.UnmarshalKey goLib (some pkcs1Record)
        = (⟨pkcs1Pem, some sampleKey, some pkcs1Record⟩, Outcome.ret none) := by
  decide!

/-- Verification on a known key pair: the verifier made from the record of the sample key
accepts the signature that the matching private key made of the sample message, and
rejects, with the verification error of the library, that signature for another
message, the signature with one bit flipped, and a signature of another length. -/
theorem verify_known_key_pair :
    readyVerifier.Verify goLib sampleMsg sampleSig = Outcome.ret none
    ∧ readyVerifier.Verify goLib (ascii "hello worlds") sampleSig
        = Outcome.ret (some rsa.ErrVerification)
    ∧ readyVerifier.Verify goLib [] sampleSig = Outcome.ret (some rsa.ErrVerification)
    ∧ readyVerifier.Verify goLib sampleMsg flippedSig = Outcome.ret (some rsa.ErrVerification)
    ∧ readyVerifier.Verify goLib sampleMsg (sampleSig.take 63)
        = Outcome.ret (some rsa.ErrVerification)
    ∧ readyVerifier.Verify goLib sampleMsg [] = Outcome.ret (some rsa.ErrVerification) := by
  decide!

end Keys
